import Mathlib

set_option maxHeartbeats 1000000
set_option maxRecDepth 4000

namespace Upkeep

/-!
Shallow embedding of the upkeep repository's parsing and scoring core:
the semver comparator (`src/lib/utils/semver.ts`), the outdated-output
parsers and package-manager detector (`src/lib/analyzers/deps.ts`,
`src/lib/analyzers/package-manager.ts`), the audit-output parsers
(`src/lib/analyzers/audit.ts`), the quality metric calculators
(`src/lib/scorers/quality.ts`) and the risk scorer
(`src/lib/scorers/risk.ts`).

JavaScript dynamic values are modelled by the `Json` inductive below.
`JSON.parse` belongs to the JS runtime, not to the repository, so the
string-level parser wrappers abstract it as a parameter
`jp : String → Option Json` (`Option.none` models a parse exception).
A thrown `TypeError` (property access on `null`, calling a string method
on a non-string, iterating a non-array) is modelled by `Except.error ()`;
where the TypeScript schema declares a string/array field, reading a
value of another shape is routed to the thrown path as well.
-/

/-- JSON/JS value model. `num` carries an `Int`: every count or version
component the repository manipulates is integral. -/
inductive Json where
  | null : Json
  | bool : Bool → Json
  | num : Int → Json
  | str : String → Json
  | arr : List Json → Json
  | obj : List (String × Json) → Json

/-- First-match field lookup in an object's field list (JSON.parse never
produces duplicate keys, so first-match is exact). -/
def Json.lookup (fields : List (String × Json)) (key : String) : Option Json :=
  (fields.find? fun kv => kv.1 == key).map Prod.snd

/-- `typeof v === "string"`. -/
def Json.isStr : Json → Bool
  | .str _ => true
  | _ => false

/-- JS truthiness of a value. -/
def Json.truthy : Json → Bool
  | .null => false
  | .bool b => b
  | .num n => decide (n ≠ 0)
  | .str s => decide (s ≠ "")
  | .arr _ => true
  | .obj _ => true

/-- JS truthiness where `Option.none` stands for `undefined`. -/
def jsTruthy : Option Json → Bool
  | Option.none => false
  | some j => j.truthy

/-- `x ?? y` triggers on `undefined` and `null` only. -/
def jsNullish : Option Json → Bool
  | Option.none => true
  | some .null => true
  | _ => false

/-- Property access `v.key`: throws a TypeError on `null`, yields
`undefined` on primitives, looks the key up on objects (string keys on
arrays are `undefined`). -/
def jsGet : Json → String → Except Unit (Option Json)
  | .null, _ => .error ()
  | .obj fields, k => .ok (Json.lookup fields k)
  | _, _ => .ok Option.none

/-- `Object.entries`: throws on `null`, index/char entries for
arrays/strings, pairs for objects, empty for other primitives. -/
def jsEntries : Json → Except Unit (List (String × Json))
  | .null => .error ()
  | .obj fields => .ok fields
  | .arr xs => .ok (xs.enum.map fun p => (toString p.1, p.2))
  | .str s => .ok (s.data.enum.map fun p => (toString p.1, Json.str (String.mk [p.2])))
  | _ => .ok []

/-- Coerce a field value to the string its TypeScript schema declares;
any other shape throws at the first string-method call on it. -/
def asStringE : Option Json → Except Unit String
  | some (.str s) => .ok s
  | _ => .error ()

/-- Coerce a field value to the array its TypeScript schema declares;
any other shape throws at the first array-method call on it. -/
def asArrE : Option Json → Except Unit (List Json)
  | some (.arr xs) => .ok xs
  | _ => .error ()

-- ===========================================================================
-- String helpers shared by the parsers
-- ===========================================================================

/-- Does `cs` start with `pat`? -/
def listStartsWith : List Char → List Char → Bool
  | _, [] => true
  | [], _ :: _ => false
  | c :: cs, p :: ps => c = p && listStartsWith cs ps

/-- Does `cs` contain `pat` as a contiguous run (JS `String.includes`)? -/
def listContainsSub : List Char → List Char → Bool
  | cs, pat =>
    if listStartsWith cs pat then true
    else match cs with
      | [] => false
      | _ :: rest => listContainsSub rest pat

/-- JS `s.includes(pat)`. -/
def strContains (s pat : String) : Bool :=
  listContainsSub s.data pat.data

/-- Strip whitespace from both ends of a character list. -/
def trimChars (cs : List Char) : List Char :=
  ((cs.dropWhile Char.isWhitespace).reverse.dropWhile Char.isWhitespace).reverse

/-- JS `s.trim()` (the built-in `String.trim` does not reduce in the
kernel, so the repository's trims are modelled on character lists). -/
def jsTrim (s : String) : String :=
  String.mk (trimChars s.data)

/-- Split a character list on a separator character; JS `split` keeps
empty segments. -/
def splitOnChar (sep : Char) : List Char → List (List Char)
  | [] => [[]]
  | c :: rest =>
    if c = sep then [] :: splitOnChar sep rest
    else
      match splitOnChar sep rest with
      | [] => [[c]]
      | seg :: segs => (c :: seg) :: segs

/-- JS `s.split(sep)` for a one-character separator. -/
def strSplitOnChar (s : String) (sep : Char) : List String :=
  (splitOnChar sep s.data).map String.mk

-- ===========================================================================
-- src/lib/utils/semver.ts
-- ===========================================================================

/-- `UpdateType` from semver.ts. -/
inductive UpdateType where
  | major : UpdateType
  | minor : UpdateType
  | patch : UpdateType
  | none : UpdateType
deriving Repr, DecidableEq

/-- `SemverParts` from semver.ts. -/
structure SemverParts where
  major : Nat
  minor : Nat
  patch : Nat
  prerelease : Option String
  build : Option String
deriving Repr, DecidableEq

/-- `version.replace(/^v/, "")`: removes one leading lowercase `v`. -/
def stripLeadingV (s : String) : String :=
  match s.data with
  | 'v' :: rest => String.mk rest
  | _ => s

/-- `parseInt(digits, 10)` on a non-empty digit run. -/
def digitsToNat (ds : List Char) : Nat :=
  ds.foldl (fun n c => 10 * n + (c.toNat - '0'.toNat)) 0

/-- One character of a prerelease/build segment: `[0-9A-Za-z-]`. -/
def idChar (c : Char) : Bool :=
  c.isAlphanum || c = '-'

/-- Split a character list on `.`. -/
def splitOnDot : List Char → List (List Char)
  | [] => [[]]
  | '.' :: rest => [] :: splitOnDot rest
  | c :: rest =>
    match splitOnDot rest with
    | [] => [[c]]
    | seg :: segs => (c :: seg) :: segs

/-- Dot-separated segments, each non-empty and of `[0-9A-Za-z-]` chars
(the regex groups `[0-9A-Za-z-]+(?:\.[0-9A-Za-z-]+)*`). -/
def validSegs (cs : List Char) : Bool :=
  (splitOnDot cs).all fun seg => decide (seg ≠ []) && seg.all idChar

/-- Parse the `major.minor.patch` core, returning the remainder. -/
def parseCore (cs : List Char) : Option (Nat × Nat × Nat × List Char) :=
  let s1 := cs.span Char.isDigit
  match s1.1, s1.2 with
  | [], _ => Option.none
  | _ :: _, '.' :: r1 =>
    let s2 := r1.span Char.isDigit
    (match s2.1, s2.2 with
     | [], _ => Option.none
     | _ :: _, '.' :: r2 =>
       let s3 := r2.span Char.isDigit
       (match s3.1, s3.2 with
        | [], _ => Option.none
        | _ :: _, r3 => some (digitsToNat s1.1, digitsToNat s2.1, digitsToNat s3.1, r3))
     | _ :: _, _ => Option.none)
  | _ :: _, _ => Option.none

/-- `parseSemver` from semver.ts: strict `major.minor.patch` with optional
`-prerelease` and `+build`, after stripping one leading `v`. -/
def parseSemver (version : String) : Option SemverParts :=
  let cleaned := stripLeadingV version
  match parseCore cleaned.data with
  | Option.none => Option.none
  | some (ma, mi, pa, rest) =>
    match rest with
    | [] => some ⟨ma, mi, pa, Option.none, Option.none⟩
    | '-' :: preRest =>
      let preCs := preRest.takeWhile (· ≠ '+')
      let after := preRest.dropWhile (· ≠ '+')
      if validSegs preCs then
        match after with
        | [] => some ⟨ma, mi, pa, some (String.mk preCs), Option.none⟩
        | '+' :: bcs =>
          if validSegs bcs then
            some ⟨ma, mi, pa, some (String.mk preCs), some (String.mk bcs)⟩
          else Option.none
        | _ :: _ => Option.none
      else Option.none
    | '+' :: bcs =>
      if validSegs bcs then some ⟨ma, mi, pa, Option.none, some (String.mk bcs)⟩
      else Option.none
    | _ :: _ => Option.none

/-- `getUpdateType` from semver.ts. -/
def getUpdateType (current latest : String) : UpdateType :=
  match parseSemver current, parseSemver latest with
  | Option.none, _ => UpdateType.none
  | _, Option.none => UpdateType.none
  | some c, some l =>
    if c.major = l.major ∧ c.minor = l.minor ∧ c.patch = l.patch then UpdateType.none
    else if l.major > c.major then UpdateType.major
    else if l.major = c.major ∧ l.minor > c.minor then UpdateType.minor
    else if l.major = c.major ∧ l.minor = c.minor ∧ l.patch > c.patch then UpdateType.patch
    else UpdateType.none

-- ===========================================================================
-- src/lib/analyzers/deps.ts — outdated-output parsers
-- ===========================================================================

/-- `OutdatedPackage` from deps.ts. -/
structure OutdatedPackage where
  name : String
  current : String
  latest : String
  updateType : UpdateType
  isDevDep : Bool
deriving Repr, DecidableEq

/-- Property access `x.key` where `x` itself may be `undefined`
(accessing a property of `undefined` throws). -/
def jsGetOpt (o : Option Json) (key : String) : Except Unit (Option Json) :=
  match o with
  | Option.none => .error ()
  | some j => jsGet j key

/-- One entry of the npm `outdated --json` object: the pushed record
evaluates `info.current`, `info.latest`, then `getUpdateType` (whose
`String.replace` call throws on a non-string version). -/
def npmOutdatedEntry (name : String) (info : Json) : Except Unit OutdatedPackage := do
  let c? ← jsGet info "current"
  let l? ← jsGet info "latest"
  let current ← asStringE c?
  let latest ← asStringE l?
  pure ⟨name, current, latest, getUpdateType current latest, false⟩

/-- Body of the `try` block of `parseNpmOutdated`. -/
def npmOutdatedBody (data : Json) : Except Unit (List OutdatedPackage) := do
  let es ← jsEntries data
  es.mapM fun e => npmOutdatedEntry e.1 e.2

/-- `parseNpmOutdated` from deps.ts; `jp` models `JSON.parse`
(`Option.none` = parse exception), the `catch` yields `[]`. -/
def parseNpmOutdated (jp : String → Option Json) (output : String) :
    List OutdatedPackage :=
  if jsTrim output = "" then []
  else
    match jp output with
    | Option.none => []
    | some data =>
      match npmOutdatedBody data with
      | .ok pkgs => pkgs
      | .error _ => []

/-- One entry of the pnpm `outdated --format json` object. -/
def pnpmOutdatedEntry (name : String) (info : Json) : Except Unit OutdatedPackage := do
  let c? ← jsGet info "current"
  let l? ← jsGet info "latest"
  let current ← asStringE c?
  let latest ← asStringE l?
  let dt? ← jsGet info "dependencyType"
  let isDev :=
    match dt? with
    | some (Json.str s) => s == "devDependencies"
    | _ => false
  pure ⟨name, current, latest, getUpdateType current latest, isDev⟩

/-- Body of the `try` block of `parsePnpmOutdated`. -/
def pnpmOutdatedBody (data : Json) : Except Unit (List OutdatedPackage) := do
  let es ← jsEntries data
  es.mapM fun e => pnpmOutdatedEntry e.1 e.2

/-- `parsePnpmOutdated` from deps.ts. -/
def parsePnpmOutdated (jp : String → Option Json) (output : String) :
    List OutdatedPackage :=
  if jsTrim output = "" then []
  else
    match jp output with
    | Option.none => []
    | some data =>
      match pnpmOutdatedBody data with
      | .ok pkgs => pkgs
      | .error _ => []

/-- First index of the exact string `t` in a JS array (`indexOf` uses
strict equality, so only string elements can match). -/
def jsonFindIdxStr : List Json → String → Option Nat
  | [], _ => Option.none
  | Json.str s :: rest, t =>
    if s = t then some 0
    else (jsonFindIdxStr rest t).map Nat.succ
  | _ :: rest, t => (jsonFindIdxStr rest t).map Nat.succ

/-- JS indexing `row[i]`: throws on `null`, indexes arrays and strings
(a string yields a one-character string), `undefined` otherwise. -/
def jsIndex : Json → Nat → Except Unit (Option Json)
  | .null, _ => .error ()
  | .arr xs, i => .ok (xs.get? i)
  | .str s, i => .ok ((s.data.get? i).map fun c => Json.str (String.mk [c]))
  | _, _ => .ok Option.none

/-- One body row of a yarn `outdated --json` table line: `.ok none`
models `continue` (a falsy cell), `.error` a thrown TypeError (which
aborts the rest of the line but keeps earlier pushes). The stored
name/current/latest are coerced to the `string[][]` schema. -/
def yarnOutdatedRow (pIdx cIdx lIdx : Nat) (tIdx : Option Nat) (row : Json) :
    Except Unit (Option OutdatedPackage) := do
  let name? ← jsIndex row pIdx
  let current? ← jsIndex row cIdx
  let latest? ← jsIndex row lIdx
  let pkgType? ←
    match tIdx with
    | some i => jsIndex row i
    | Option.none => pure (some (Json.str "dependencies"))
  if jsTruthy name? && jsTruthy current? && jsTruthy latest? then
    let name ← asStringE name?
    let current ← asStringE current?
    let latest ← asStringE latest?
    let isDev :=
      match pkgType? with
      | some (Json.str s) => s == "devDependencies"
      | _ => false
    pure (some ⟨name, current, latest, getUpdateType current latest, isDev⟩)
  else
    pure Option.none

/-- Process the rows of one table line; a thrown row stops the line but
keeps the packages pushed by earlier rows. -/
def yarnOutdatedRows (pIdx cIdx lIdx : Nat) (tIdx : Option Nat) :
    List Json → List OutdatedPackage
  | [] => []
  | row :: rest =>
    match yarnOutdatedRow pIdx cIdx lIdx tIdx row with
    | .error _ => []
    | .ok Option.none => yarnOutdatedRows pIdx cIdx lIdx tIdx rest
    | .ok (some p) => p :: yarnOutdatedRows pIdx cIdx lIdx tIdx rest

/-- The pre-loop part of a `type: "table"` line: read `data.head` /
`data.body`, resolve the column indices, `continue` (`.ok none`) when a
required column is missing. -/
def yarnTableSetup (parsed : Json) :
    Except Unit (Option (Nat × Nat × Nat × Option Nat × List Json)) := do
  let d? ← jsGet parsed "data"
  let head? ← jsGetOpt d? "head"
  let headers ← asArrE head?
  let body? ← jsGetOpt d? "body"
  let packageIdx := jsonFindIdxStr headers "Package"
  let currentIdx := jsonFindIdxStr headers "Current"
  let latestIdx := jsonFindIdxStr headers "Latest"
  let typeIdx := jsonFindIdxStr headers "Package Type"
  match packageIdx, currentIdx, latestIdx with
  | some p, some c, some l => do
    let rows ← asArrE body?
    pure (some (p, c, l, typeIdx, rows))
  | _, _, _ => pure Option.none

/-- One NDJSON line of `parseYarnOutdated`: non-JSON lines and lines
whose `type` is not `"table"` contribute nothing. -/
def yarnOutdatedLine (jp : String → Option Json) (line : String) :
    List OutdatedPackage :=
  match jp line with
  | Option.none => []
  | some parsed =>
    match jsGet parsed "type" with
    | .error _ => []
    | .ok t? =>
      if (match t? with | some (Json.str s) => s == "table" | _ => false) then
        match yarnTableSetup parsed with
        | .error _ => []
        | .ok Option.none => []
        | .ok (some (p, c, l, t, rows)) => yarnOutdatedRows p c l t rows
      else []

/-- `parseYarnOutdated` from deps.ts. -/
def parseYarnOutdated (jp : String → Option Json) (output : String) :
    List OutdatedPackage :=
  if jsTrim output = "" then []
  else
    (strSplitOnChar (jsTrim output) '\n').foldl (fun acc line => acc ++ yarnOutdatedLine jp line) []

/-- `nameCell.replace(/\s*\(dev\)\s*/, "")`: remove the first `(dev)`
occurrence together with the contiguous whitespace around it. `pre` is
the reversed prefix scanned so far. -/
def stripDevAux (pre : List Char) : List Char → List Char
  | [] => pre.reverse
  | c :: cs =>
    if listStartsWith (c :: cs) "(dev)".data then
      (pre.dropWhile Char.isWhitespace).reverse ++ ((c :: cs).drop 5).dropWhile Char.isWhitespace
    else stripDevAux (c :: pre) cs

/-- String-level wrapper for the `(dev)` marker removal. -/
def stripDevOnce (s : String) : String :=
  String.mk (stripDevAux [] s.data)

/-- One line of the bun ASCII table: header, separator and `|`-less
lines are skipped; a row needs at least four non-empty trimmed cells;
the `(dev)` suffix marks a dev dependency and is stripped from the
name; a row whose stripped name is empty is skipped (the
`!nameCell` guard cannot fire after the non-empty filter). -/
def bunOutdatedLine (line : String) : List OutdatedPackage :=
  if !strContains line "|" || strContains line "Package" || strContains line "---" then []
  else
    let cells := ((strSplitOnChar line '|').map jsTrim).filter (fun c => c ≠ "")
    match cells with
    | nameCell :: currentCell :: _ :: latestCell :: _ =>
      let isDevDep := strContains nameCell "(dev)"
      let name := jsTrim (stripDevOnce nameCell)
      if name ≠ "" then
        [⟨name, currentCell, latestCell, getUpdateType currentCell latestCell, isDevDep⟩]
      else []
    | _ => []

/-- `parseBunOutdated` from deps.ts (no JSON, no empty-input guard). -/
def parseBunOutdated (output : String) : List OutdatedPackage :=
  (strSplitOnChar output '\n').foldl (fun acc line => acc ++ bunOutdatedLine line) []

-- ===========================================================================
-- src/lib/analyzers/package-manager.ts
-- ===========================================================================

/-- `PackageManagerName` from package-manager.ts. -/
inductive PackageManagerName where
  | npm : PackageManagerName
  | pnpm : PackageManagerName
  | yarn : PackageManagerName
  | bun : PackageManagerName
deriving Repr, DecidableEq

/-- `PackageManagerConfig` from package-manager.ts. -/
structure PackageManagerConfig where
  name : PackageManagerName
  lockfile : String
  installCommand : String
  upgradeCommand : String
deriving Repr, DecidableEq

/-- `PackageManagerInfo` from package-manager.ts. -/
structure PackageManagerInfo where
  name : PackageManagerName
  lockfile : Option String
  installCommand : String
  upgradeCommand : String
  hasMultipleLockfiles : Bool
  detectedLockfiles : List String
  corepackSpec : Option String
deriving Repr, DecidableEq

/-- The `PACKAGE_MANAGERS` priority list. -/
def packageManagersList : List PackageManagerConfig :=
  [⟨PackageManagerName.bun, "bun.lock", "bun install", "bun update"⟩,
   ⟨PackageManagerName.pnpm, "pnpm-lock.yaml", "pnpm install", "pnpm update"⟩,
   ⟨PackageManagerName.yarn, "yarn.lock", "yarn install", "yarn upgrade"⟩,
   ⟨PackageManagerName.npm, "package-lock.json", "npm install", "npm update"⟩]

/-- The `BUN_LOCKFILES` pair (text and binary bun lockfile names). -/
def bunLockfiles : List String := ["bun.lock", "bun.lockb"]

/-- `DEFAULT_PACKAGE_MANAGER` from package-manager.ts. -/
def defaultPackageManager : PackageManagerInfo :=
  ⟨PackageManagerName.npm, Option.none, "npm install", "npm update", false, [], Option.none⟩

/-- `detectLockfiles`: the file system is modelled as the list of file
names present in the project directory; for bun either lockfile name
counts, and only the first found is recorded (`break`). -/
def detectLockfiles (files : List String) : List String :=
  packageManagersList.foldl
    (fun detected pm =>
      let toCheck := if pm.name == PackageManagerName.bun then bunLockfiles else [pm.lockfile]
      match toCheck.find? (fun lf => files.contains lf) with
      | some lf => detected ++ [lf]
      | Option.none => detected)
    []

/-- `parseCorepackSpec`: the regex `^(bun|pnpm|yarn|npm)@`. -/
def parseCorepackSpec (s : String) : Option PackageManagerName :=
  if listStartsWith s.data "bun@".data then some PackageManagerName.bun
  else if listStartsWith s.data "pnpm@".data then some PackageManagerName.pnpm
  else if listStartsWith s.data "yarn@".data then some PackageManagerName.yarn
  else if listStartsWith s.data "npm@".data then some PackageManagerName.npm
  else Option.none

/-- `detectPackageManager` from package-manager.ts. `corepackSpec` is
the manifest's `packageManager` field when package.json exists, parses,
and carries the field (`readPackageJson` otherwise yields null, folded
into `Option.none` here). -/
def detectPackageManager (files : List String) (corepackSpec : Option String) :
    PackageManagerInfo :=
  let detectedLockfiles := detectLockfiles files
  match detectedLockfiles with
  | [] =>
    (match corepackSpec with
     | some spec =>
       if spec ≠ "" then
         match parseCorepackSpec spec with
         | some pmName =>
           (match packageManagersList.find? (fun pm => pm.name == pmName) with
            | some config =>
              ⟨config.name, Option.none, config.installCommand, config.upgradeCommand,
                false, [], corepackSpec⟩
            | Option.none => { defaultPackageManager with corepackSpec })
         | Option.none => { defaultPackageManager with corepackSpec }
       else { defaultPackageManager with corepackSpec }
     | Option.none => { defaultPackageManager with corepackSpec })
  | primaryLockfile :: _ =>
    let isBunLockfile := bunLockfiles.contains primaryLockfile
    match packageManagersList.find?
        (fun pm =>
          if isBunLockfile then pm.name == PackageManagerName.bun
          else pm.lockfile == primaryLockfile) with
    | Option.none => { defaultPackageManager with detectedLockfiles, corepackSpec }
    | some config =>
      ⟨config.name, some primaryLockfile, config.installCommand, config.upgradeCommand,
        decide (detectedLockfiles.length > 1), detectedLockfiles, corepackSpec⟩

/-- Modelled from the spec: the strict priority order
bun > pnpm > yarn > npm among lockfiles present in the directory,
used as the comparison point for the detector's choice. -/
def specPriorityChoice (files : List String) : Option PackageManagerName :=
  if files.contains "bun.lock" || files.contains "bun.lockb" then some PackageManagerName.bun
  else if files.contains "pnpm-lock.yaml" then some PackageManagerName.pnpm
  else if files.contains "yarn.lock" then some PackageManagerName.yarn
  else if files.contains "package-lock.json" then some PackageManagerName.npm
  else Option.none

-- ===========================================================================
-- src/lib/analyzers/audit.ts
-- ===========================================================================

/-- `Severity` from audit.ts. -/
inductive Severity where
  | critical : Severity
  | high : Severity
  | moderate : Severity
  | low : Severity
  | info : Severity
deriving Repr, DecidableEq

/-- ASCII lowercase of a string (`severity.toLowerCase()`). -/
def toLowerStr (s : String) : String :=
  String.mk (s.data.map Char.toLower)

/-- `normalizeSeverity` from audit.ts (`"medium"` is coerced to
`moderate`; anything unrecognized is `info`). -/
def normalizeSeverity (severity : String) : Severity :=
  let s := toLowerStr severity
  if s == "critical" then Severity.critical
  else if s == "high" then Severity.high
  else if s == "moderate" || s == "medium" then Severity.moderate
  else if s == "low" then Severity.low
  else Severity.info

/-- `Vulnerability` from audit.ts. `title` keeps the raw JS value the
code stores (it is never operated on); `fixVersion` keeps the raw value
(`Option.none` = null). -/
structure Vulnerability where
  package : String
  severity : Severity
  title : Option Json
  path : String
  fixAvailable : Bool
  fixVersion : Option Json

/-- `AuditSummary` from audit.ts. -/
structure AuditSummary where
  critical : Int
  high : Int
  moderate : Int
  low : Int
  total : Int
deriving Repr, DecidableEq

/-- `AuditResult` from audit.ts. -/
structure AuditResult where
  vulnerabilities : List Vulnerability
  summary : AuditSummary

/-- `extractNpmFixVersion`: returns `fixAvailable.version` when
`fixAvailable` is object-typed with a truthy `version` (a `null`
`fixAvailable` passes the `typeof === "object"` test and then throws). -/
def extractNpmFixVersion : Option Json → Except Unit (Option Json)
  | some Json.null => .error ()
  | some (Json.obj fields) =>
    let v := Json.lookup fields "version"
    .ok (if jsTruthy v then v else Option.none)
  | _ => .ok Option.none

/-- `extractNpmTitle`: first `via` element that passes
`typeof v === "object"` and has a truthy `title` (a `null` element
passes the typeof test and then throws on `.title`). -/
def extractNpmTitle : List Json → Except Unit Json
  | [] => .ok (Json.str "Unknown vulnerability")
  | v :: rest =>
    match v with
    | Json.null => .error ()
    | Json.obj fields =>
      (match Json.lookup fields "title" with
       | some tv => if tv.truthy then .ok tv else extractNpmTitle rest
       | Option.none => extractNpmTitle rest)
    | _ => extractNpmTitle rest

/-- Number of keys of the arena not yet in the visited set: the
decreasing measure of the path builder's recursion. -/
def unvisitedCount (allVulns : List (String × Json)) (visited : List String) : Nat :=
  ((allVulns.map Prod.fst).filter fun k => decide (¬ k ∈ visited)).length

/-- `buildPathRecursive` (the inner closure of `buildNpmPath`): walks
the `effects` graph by name with an explicit visited set; the JS `Set`
is only ever grown before the single recursive call, so threading an
immutable list is exact. Termination: each recursive step consumes one
unvisited key of the arena. -/
def buildPathRecursive (allVulns : List (String × Json)) (name : String)
    (visited : List String) : Except Unit (List String) :=
  if hv : name ∈ visited then .ok [name]
  else
    match hl : Json.lookup allVulns name with
    | Option.none => .ok [name]
    | some v =>
      if !v.truthy then .ok [name]
      else
        match jsGet v "effects" with
        | .error _ => .error ()
        | .ok eff? =>
          match asArrE eff? with
          | .error _ => .error ()
          | .ok [] => .ok [name]
          | .ok (e :: _) =>
            match asStringE (some e) with
            | .error _ => .error ()
            | .ok s =>
              match buildPathRecursive allVulns s (name :: visited) with
              | .error _ => .error ()
              | .ok parentPath => .ok (parentPath ++ [name])
termination_by unvisitedCount allVulns visited
decreasing_by
  simp only [unvisitedCount]
  have hmem : name ∈ allVulns.map Prod.fst := by
    rcases hf : allVulns.find? (fun kv => kv.1 == name) with _ | kv
    · simp [Json.lookup, hf] at hl
    · have hkv := List.mem_of_find?_eq_some hf
      have hp := List.find?_some hf
      exact List.mem_map.mpr ⟨kv, hkv, by simpa using hp⟩
  have hsub :
      List.Sublist
        ((allVulns.map Prod.fst).filter fun k => decide (¬ k ∈ name :: visited))
        ((allVulns.map Prod.fst).filter fun k => decide (¬ k ∈ visited)) := by
    apply List.monotone_filter_right
    intro a ha
    simp only [decide_eq_true_eq, List.mem_cons] at ha ⊢
    tauto
  apply Nat.lt_of_le_of_ne hsub.length_le
  intro heq
  have heqlist := hsub.eq_of_length heq
  have hin :
      name ∈ ((allVulns.map Prod.fst).filter fun k => decide (¬ k ∈ visited)) :=
    List.mem_filter.mpr ⟨hmem, by simpa using hv⟩
  rw [← heqlist] at hin
  have hcon := (List.mem_filter.mp hin).2
  simp at hcon

/-- JS `parts.join(sep)`. -/
def joinSep (sep : String) : List String → String
  | [] => ""
  | [x] => x
  | x :: y :: xs => x ++ sep ++ joinSep sep (y :: xs)

/-- `buildNpmPath` from audit.ts: with a non-empty `effects` the walk
result is reversed and joined with `" > "`; with an empty `effects` the
path is the package name alone. -/
def buildNpmPath (vuln : Json) (allVulns : List (String × Json)) :
    Except Unit String := do
  let effects ← asArrE (← jsGet vuln "effects")
  match effects with
  | _ :: _ => do
    let name ← asStringE (← jsGet vuln "name")
    let pathParts ← buildPathRecursive allVulns name []
    pure (joinSep " > " pathParts.reverse)
  | [] => do
    let name ← asStringE (← jsGet vuln "name")
    pure name

/-- `meta.<key> ?? 0`, coerced to the numeric schema of the audit
metadata (a non-numeric count is out of schema and routed to the thrown
path). -/
def jsCount (meta : Json) (key : String) : Except Unit Int := do
  let v? ← jsGet meta key
  match v? with
  | Option.none => pure 0
  | some Json.null => pure 0
  | some (Json.num n) => pure n
  | some _ => .error ()

/-- `data.metadata?.vulnerabilities` (optional chain). -/
def metaVulnsOpt (data : Json) : Except Unit (Option Json) := do
  let m? ← jsGet data "metadata"
  match m? with
  | Option.none => pure Option.none
  | some Json.null => pure Option.none
  | some m => jsGet m "vulnerabilities"

/-- The npm summary: all five fields copied from
`data.metadata.vulnerabilities` with `?? 0` defaults — `total` is taken
verbatim, not recomputed. -/
def npmSummaryOfMeta (meta : Json) : Except Unit AuditSummary := do
  let c ← jsCount meta "critical"
  let h ← jsCount meta "high"
  let m ← jsCount meta "moderate"
  let l ← jsCount meta "low"
  let t ← jsCount meta "total"
  pure ⟨c, h, m, l, t⟩

/-- `x ?? {}` on a freshly read field. -/
def orEmptyObj : Option Json → Json
  | Option.none => Json.obj []
  | some Json.null => Json.obj []
  | some v => v

/-- The npm skip rule: `via.some(v => typeof v === "string") &&
via.length === 1` — exactly a one-element `via` whose element is a bare
string. Processing one entry yields `.ok none` for `continue`. -/
def npmVulnEntry (vuln : Json) (allVulns : List (String × Json)) :
    Except Unit (Option Vulnerability) := do
  let via ← asArrE (← jsGet vuln "via")
  if via.any Json.isStr && via.length == 1 then
    pure Option.none
  else do
    let title ← extractNpmTitle via
    let fa? ← jsGet vuln "fixAvailable"
    let fixAvailable := !(match fa? with | some (Json.bool false) => true | _ => false)
    let fixVersion ← extractNpmFixVersion fa?
    let path ← buildNpmPath vuln allVulns
    let name ← asStringE (← jsGet vuln "name")
    let sev ← asStringE (← jsGet vuln "severity")
    pure (some ⟨name, normalizeSeverity sev, some title, path, fixAvailable, fixVersion⟩)

/-- The npm entry loop (`for ... of Object.entries(vulns)`), pushing
processed entries in order and skipping passthrough entries. -/
def npmVulnEntries (allVulns : List (String × Json)) :
    List (String × Json) → Except Unit (List Vulnerability)
  | [] => .ok []
  | (_, vuln) :: rest => do
    match ← npmVulnEntry vuln allVulns with
    | Option.none => npmVulnEntries allVulns rest
    | some v => do
      let vs ← npmVulnEntries allVulns rest
      pure (v :: vs)

/-- The body of `parseNpmAudit`'s `try` block, on the parsed JSON value.
`.error` covers both the `return null` branches and a thrown TypeError:
the string-level wrapper maps either to `null`. -/
def parseNpmAuditJson (data : Json) : Except Unit AuditResult := do
  let mv? ← metaVulnsOpt data
  if !jsTruthy mv? then .error ()
  else do
    let metaObj := mv?.getD Json.null
    let vulnsJ := orEmptyObj (← jsGet data "vulnerabilities")
    let es ← jsEntries vulnsJ
    let vulnerabilities ← npmVulnEntries es es
    let summary ← npmSummaryOfMeta metaObj
    pure ⟨vulnerabilities, summary⟩

/-- `parseNpmAudit` from audit.ts; `jp` models `JSON.parse`. -/
def parseNpmAudit (jp : String → Option Json) (output : String) : Option AuditResult :=
  if jsTrim output = "" then Option.none
  else
    match jp output with
    | Option.none => Option.none
    | some data => (parseNpmAuditJson data).toOption

/-- The `/(\d+\.\d+\.\d+)/` matcher at one position: greedy digit runs
separated by dots (digits and `.` are disjoint, so no backtracking
arises). -/
def matchSemverAt (cs : List Char) : Option String :=
  let s1 := cs.span Char.isDigit
  match s1.1, s1.2 with
  | [], _ => Option.none
  | d1, '.' :: r1 =>
    let s2 := r1.span Char.isDigit
    (match s2.1, s2.2 with
     | [], _ => Option.none
     | d2, '.' :: r2 =>
       let s3 := r2.span Char.isDigit
       (match s3.1 with
        | [] => Option.none
        | d3 => some (String.mk (d1 ++ '.' :: (d2 ++ '.' :: d3))))
     | _, _ => Option.none)
  | _, _ => Option.none

/-- Leftmost match of `/(\d+\.\d+\.\d+)/` in a character list. -/
def firstSemverSub : List Char → Option String
  | [] => Option.none
  | c :: rest =>
    match matchSemverAt (c :: rest) with
    | some m => some m
    | Option.none => firstSemverSub rest

/-- `patched_versions.match(/(\d+\.\d+\.\d+)/)?.[1]` as used by the pnpm
and yarn parsers. -/
def firstSemverMatch (s : String) : Option String :=
  firstSemverSub s.data

/-- The pnpm/yarn fix-version rule: `patched_versions` must be truthy
and not the `"<0.0.0"` sentinel, then the first `major.minor.patch`
substring is extracted (`.match` throws on a truthy non-string). -/
def patchedFixVersion : Option Json → Except Unit (Option String)
  | pv? =>
    if !jsTruthy pv? then .ok Option.none
    else
      match pv? with
      | some (Json.str s) =>
        if s == "<0.0.0" then .ok Option.none else .ok (firstSemverMatch s)
      | _ => .error ()

/-- `path.replace(/>/g, " > ")`. -/
def replaceGtSpaced (s : String) : String :=
  String.mk (s.data.foldr (fun c acc => if c = '>' then ' ' :: '>' :: ' ' :: acc else c :: acc) [])

/-- The pnpm/yarn summary: the four buckets from the metadata plus a
`total` computed as the sum of all five severities (info included). -/
def sumFiveSummary (meta : Json) : Except Unit AuditSummary := do
  let c ← jsCount meta "critical"
  let h ← jsCount meta "high"
  let m ← jsCount meta "moderate"
  let l ← jsCount meta "low"
  let i ← jsCount meta "info"
  pure ⟨c, h, m, l, c + h + m + l + i⟩

/-- One pnpm advisory entry: paths are collected from
`findings[].paths[]`, the emitted path is the first one (or the module
name), with `>` separators spaced; `fixAvailable` is defined as
`fixVersion !== null`. -/
def pnpmAdvisoryEntry (advisory : Json) : Except Unit Vulnerability := do
  let f? ← jsGet advisory "findings"
  let findings ← if jsNullish f? then pure [] else asArrE f?
  let paths ← findings.foldlM
    (fun acc finding => do
      let p? ← jsGet finding "paths"
      let ps ← if jsNullish p? then pure [] else asArrE p?
      pure (acc ++ ps))
    ([] : List Json)
  let mn? ← jsGet advisory "module_name"
  let path0? : Option Json := match paths with | [] => Option.none | p :: _ => some p
  let pathVal? := if jsNullish path0? then mn? else path0?
  let pathStr ← asStringE pathVal?
  let pv? ← jsGet advisory "patched_versions"
  let fixVersion ← patchedFixVersion pv?
  let pkg ← asStringE mn?
  let sev ← asStringE (← jsGet advisory "severity")
  let title? ← jsGet advisory "title"
  pure ⟨pkg, normalizeSeverity sev, title?, replaceGtSpaced pathStr,
    fixVersion.isSome, fixVersion.map Json.str⟩

/-- The pnpm advisory loop (`for ... of Object.entries(advisories)`). -/
def pnpmAdvisoryEntries : List (String × Json) → Except Unit (List Vulnerability)
  | [] => .ok []
  | (_, advisory) :: rest => do
    let v ← pnpmAdvisoryEntry advisory
    let vs ← pnpmAdvisoryEntries rest
    pure (v :: vs)

/-- The body of `parsePnpmAudit`'s `try` block: a truthy `error` payload
and a missing `metadata.vulnerabilities` both yield null. -/
def parsePnpmAuditJson (data : Json) : Except Unit AuditResult := do
  let e? ← jsGet data "error"
  if jsTruthy e? then .error ()
  else do
    let mv? ← metaVulnsOpt data
    if !jsTruthy mv? then .error ()
    else do
      let metaObj := mv?.getD Json.null
      let advObj := orEmptyObj (← jsGet data "advisories")
      let es ← jsEntries advObj
      let vulnerabilities ← pnpmAdvisoryEntries es
      let summary ← sumFiveSummary metaObj
      pure ⟨vulnerabilities, summary⟩

/-- `parsePnpmAudit` from audit.ts. -/
def parsePnpmAudit (jp : String → Option Json) (output : String) : Option AuditResult :=
  if jsTrim output = "" then Option.none
  else
    match jp output with
    | Option.none => Option.none
    | some data => (parsePnpmAuditJson data).toOption

/-- One yarn `auditAdvisory` NDJSON line (destructuring `advisory.data`
throws on `undefined`/`null`). -/
def yarnAdvisoryLine (parsed : Json) : Except Unit Vulnerability := do
  let d? ← jsGet parsed "data"
  match d? with
  | Option.none => .error ()
  | some Json.null => .error ()
  | some d => do
    let resolution? ← jsGet d "resolution"
    let adv? ← jsGet d "advisory"
    let pv? ← jsGetOpt adv? "patched_versions"
    let fixVersion ← patchedFixVersion pv?
    let pkg ← asStringE (← jsGetOpt adv? "module_name")
    let sev ← asStringE (← jsGetOpt adv? "severity")
    let title? ← jsGetOpt adv? "title"
    let p ← asStringE (← jsGetOpt resolution? "path")
    pure ⟨pkg, normalizeSeverity sev, title?, replaceGtSpaced p,
      fixVersion.isSome, fixVersion.map Json.str⟩

/-- One yarn `auditSummary` NDJSON line. -/
def yarnSummaryLine (parsed : Json) : Except Unit AuditSummary := do
  let d? ← jsGet parsed "data"
  let mv? ← jsGetOpt d? "vulnerabilities"
  match mv? with
  | Option.none => .error ()
  | some m => sumFiveSummary m

/-- Fold one NDJSON line into the accumulated state (vulnerability list
and latest summary); malformed lines leave the state unchanged. -/
def yarnAuditLine (jp : String → Option Json) (st : List Vulnerability × Option AuditSummary)
    (line : String) : List Vulnerability × Option AuditSummary :=
  match jp line with
  | Option.none => st
  | some parsed =>
    match jsGet parsed "type" with
    | .error _ => st
    | .ok t? =>
      if (match t? with | some (Json.str s) => s == "auditAdvisory" | _ => false) then
        match yarnAdvisoryLine parsed with
        | .error _ => st
        | .ok v => (st.1 ++ [v], st.2)
      else if (match t? with | some (Json.str s) => s == "auditSummary" | _ => false) then
        match yarnSummaryLine parsed with
        | .error _ => st
        | .ok s => (st.1, some s)
      else st

/-- Count of vulnerabilities at one severity (the synthesized-summary
fallback). -/
def countSev (vs : List Vulnerability) (s : Severity) : Int :=
  ((vs.filter fun v => v.severity == s).length : Int)

/-- The accumulated state after folding all NDJSON lines of a yarn
audit output. -/
def yarnFoldState (jp : String → Option Json) (output : String) :
    List Vulnerability × Option AuditSummary :=
  (strSplitOnChar (jsTrim output) '\n').foldl (yarnAuditLine jp) ([], Option.none)

/-- `parseYarnAudit` from audit.ts: one vulnerability per
`auditAdvisory` line, the `auditSummary` line's counts when present,
otherwise a summary synthesized by counting the accumulated list. -/
def parseYarnAudit (jp : String → Option Json) (output : String) : Option AuditResult :=
  if jsTrim output = "" then Option.none
  else
    let st := yarnFoldState jp output
    match st.2 with
    | some summary => some ⟨st.1, summary⟩
    | Option.none =>
      match st.1 with
      | [] => Option.none
      | vs =>
        some ⟨vs,
          ⟨countSev vs Severity.critical, countSev vs Severity.high,
            countSev vs Severity.moderate, countSev vs Severity.low, (vs.length : Int)⟩⟩

-- ===========================================================================
-- src/lib/scorers/quality.ts — metric calculators
-- ===========================================================================

/-- `MetricBreakdown` from quality.ts. -/
structure MetricBreakdown where
  score : Int
  weight : Nat
  details : String
deriving Repr, DecidableEq

/-- JS `Math.round`: half-up rounding, `floor(x + 1/2)`. -/
def jsRound (q : ℚ) : Int :=
  Int.floor (q + 1 / 2)

/-- `calculateDependencyFreshnessScore` from quality.ts (weight 20):
100 for zero total, else `Math.round((upToDate / total) * 100)` where
`upToDate = total - outdated` may run negative. -/
def calculateDependencyFreshnessScore (total outdated : Nat) : MetricBreakdown :=
  if total = 0 then ⟨100, 20, "No dependencies"⟩
  else
    let upToDate : Int := (total : Int) - (outdated : Int)
    let score := jsRound (((upToDate : ℚ) / (total : ℚ)) * 100)
    let details :=
      if outdated = 0 then "All packages up-to-date"
      else toString outdated ++ " of " ++ toString total ++ " packages outdated"
    ⟨score, 20, details⟩

/-- `calculateSecurityScore` from quality.ts (weight 25): 100 minus the
per-severity deductions, clamped at 0. -/
def calculateSecurityScore (critical high moderate low : Nat) : MetricBreakdown :=
  let total := critical + high + moderate + low
  if total = 0 then ⟨100, 25, "No vulnerabilities found"⟩
  else
    let deduction : Int :=
      (critical : Int) * 25 + (high : Int) * 15 + (moderate : Int) * 5 + (low : Int) * 2
    let score := max 0 (100 - deduction)
    let parts : List String :=
      (if critical > 0 then [toString critical ++ " critical"] else []) ++
      (if high > 0 then [toString high ++ " high"] else []) ++
      (if moderate > 0 then [toString moderate ++ " moderate"] else []) ++
      (if low > 0 then [toString low ++ " low"] else [])
    ⟨score, 25, joinSep ", " parts ++ " vulnerabilities"⟩

/-- `calculateTestCoverageScore` from quality.ts (weight 20): the raw
coverage percentage, 0 when no coverage data was found. -/
def calculateTestCoverageScore (found : Bool) (percentage : Option Int) : MetricBreakdown :=
  match found, percentage with
  | false, _ => ⟨0, 20, "No coverage data found"⟩
  | true, Option.none => ⟨0, 20, "No coverage data found"⟩
  | true, some p => ⟨p, 20, toString p ++ "% line coverage"⟩

/-- `calculateTypescriptStrictnessScore` from quality.ts (weight 10):
passthrough of the tsconfig analyzer's sub-score. -/
def calculateTypescriptStrictnessScore (tsExists : Bool) (tsconfigScore : Int)
    (details : String) : MetricBreakdown :=
  if !tsExists then ⟨0, 10, "No tsconfig.json found"⟩
  else ⟨tsconfigScore, 10, details⟩

/-- `calculateLintingScore` from quality.ts (weight 10): passthrough of
the linting analyzer's sub-score. -/
def calculateLintingScore (lintingScore : Int) (details : String) : MetricBreakdown :=
  ⟨lintingScore, 10, details⟩

/-- `calculateDeadCodeScore` from quality.ts (weight 15): base 50, +25
per enabled unused-code tsconfig flag. -/
def calculateDeadCodeScore (noUnusedLocals noUnusedParameters : Bool) : MetricBreakdown :=
  let score : Int :=
    50 + (if noUnusedLocals then 25 else 0) + (if noUnusedParameters then 25 else 0)
  let flags : List String :=
    (if noUnusedLocals then ["noUnusedLocals"] else []) ++
    (if noUnusedParameters then ["noUnusedParameters"] else [])
  let details :=
    if flags.length > 0 then "Enabled: " ++ joinSep ", " flags
    else "Automated dead code detection not implemented"
  ⟨score, 15, details⟩

-- ===========================================================================
-- src/lib/scorers/risk.ts
-- ===========================================================================

/-- `RiskLevel` from risk.ts. -/
inductive RiskLevel where
  | low : RiskLevel
  | medium : RiskLevel
  | high : RiskLevel
  | critical : RiskLevel
deriving Repr, DecidableEq

/-- `RiskFactor` from risk.ts. -/
structure RiskFactor where
  score : Nat
  reason : String
deriving Repr, DecidableEq

/-- `RiskFactors` from risk.ts. -/
structure RiskFactors where
  updateType : RiskFactor
  usageScope : RiskFactor
  criticalPaths : RiskFactor
  testCoverage : RiskFactor
deriving Repr, DecidableEq

/-- `scoreUpdateType` from risk.ts (0–40 points). -/
def scoreUpdateType : UpdateType → RiskFactor
  | UpdateType.major => ⟨40, "Major version bump"⟩
  | UpdateType.minor => ⟨15, "Minor version bump"⟩
  | UpdateType.patch => ⟨5, "Patch version bump"⟩
  | UpdateType.none => ⟨0, "No version change"⟩

/-- `scoreUsageScope` from risk.ts (0–30 points). -/
def scoreUsageScope (fileCount : Nat) : RiskFactor :=
  if fileCount = 0 then ⟨0, "Not used in any files"⟩
  else if fileCount ≤ 5 then
    ⟨10, "Used in " ++ toString fileCount ++ " file" ++ (if fileCount > 1 then "s" else "")⟩
  else if fileCount ≤ 20 then ⟨20, "Used in " ++ toString fileCount ++ " files"⟩
  else ⟨30, "Used in " ++ toString fileCount ++ " files"⟩

/-- The regex `/(?:^|\/)api\//`. -/
def matchesApiDir (path : String) : Bool :=
  listStartsWith path.data "api/".data || strContains path "/api/"

/-- The regex `/(?:^|\/)routes\//`. -/
def matchesRoutesDir (path : String) : Bool :=
  listStartsWith path.data "routes/".data || strContains path "/routes/"

/-- The regex `/middleware/i`. -/
def matchesMiddleware (path : String) : Bool :=
  strContains (toLowerStr path) "middleware"

/-- The regex `/auth/i`. -/
def matchesAuth (path : String) : Bool :=
  strContains (toLowerStr path) "auth"

/-- `CriticalPathResult` from risk.ts. -/
structure CriticalPathResult where
  hasApiRoutes : Bool
  hasMiddleware : Bool
  hasAuth : Bool
deriving Repr, DecidableEq

/-- `detectCriticalPaths` from risk.ts. -/
def detectCriticalPaths (filePaths : List String) : CriticalPathResult :=
  filePaths.foldl
    (fun r path =>
      ⟨r.hasApiRoutes || matchesApiDir path || matchesRoutesDir path,
        r.hasMiddleware || matchesMiddleware path,
        r.hasAuth || matchesAuth path⟩)
    ⟨false, false, false⟩

/-- `scoreCriticalPaths` from risk.ts (0–20 points, capped at 20). -/
def scoreCriticalPaths (filePaths : List String) : RiskFactor :=
  let critical := detectCriticalPaths filePaths
  let score : Nat :=
    (if critical.hasApiRoutes then 10 else 0) +
    (if critical.hasMiddleware then 5 else 0) +
    (if critical.hasAuth then 5 else 0)
  let reasons : List String :=
    (if critical.hasApiRoutes then ["API routes"] else []) ++
    (if critical.hasMiddleware then ["middleware"] else []) ++
    (if critical.hasAuth then ["auth"] else [])
  if reasons.length = 0 then ⟨0, "Not used in critical paths"⟩
  else ⟨min score 20, "Used in " ++ joinSep " and " reasons⟩

/-- `scoreTestCoverage` from risk.ts (0–10 points, inverted). -/
def scoreTestCoverage (coveragePercent : Nat) : RiskFactor :=
  if coveragePercent > 50 then
    ⟨0, toString coveragePercent ++ "% of importing files have tests"⟩
  else if coveragePercent > 0 then
    ⟨5, toString coveragePercent ++ "% of importing files have tests"⟩
  else ⟨10, "No importing files have tests"⟩

/-- `getRiskLevel` from risk.ts. -/
def getRiskLevel (score : Nat) : RiskLevel :=
  if score ≤ 25 then RiskLevel.low
  else if score ≤ 50 then RiskLevel.medium
  else if score ≤ 75 then RiskLevel.high
  else RiskLevel.critical

/-- The relevant slice of a `RiskAssessment`. -/
structure RiskAssessmentCore where
  updateType : UpdateType
  riskScore : Nat
  riskLevel : RiskLevel
  factors : RiskFactors
deriving Repr, DecidableEq

/-- The pure scoring part of `assessRisk` from risk.ts: versions enter
as resolved strings, the importing file paths and the caller test
coverage percentage are the results of the external import analysis and
file-system probing. -/
def assessRiskCore (fromVersion toVersion : String) (filePaths : List String)
    (coveragePercent : Nat) : RiskAssessmentCore :=
  let updateType := getUpdateType fromVersion toVersion
  let fileCount := filePaths.length
  let factors : RiskFactors :=
    ⟨scoreUpdateType updateType, scoreUsageScope fileCount,
      scoreCriticalPaths filePaths, scoreTestCoverage coveragePercent⟩
  let riskScore :=
    factors.updateType.score + factors.usageScope.score +
    factors.criticalPaths.score + factors.testCoverage.score
  ⟨updateType, riskScore, getRiskLevel riskScore, factors⟩

-- ===========================================================================
-- Derived observation points used by the theorems
-- ===========================================================================

/-- The npm passthrough-skip condition as a predicate on a raw entry:
`via` read successfully as an array with
`via.some(v => typeof v === "string") && via.length === 1`. -/
def npmPassthrough (vuln : Json) : Bool :=
  match jsGet vuln "via" with
  | .ok (some (Json.arr via)) => via.any Json.isStr && via.length == 1
  | _ => false

/-- The entry list the npm parser iterates:
`Object.entries(data.vulnerabilities ?? {})`. -/
def npmEntriesOf (data : Json) : Except Unit (List (String × Json)) := do
  jsEntries (orEmptyObj (← jsGet data "vulnerabilities"))

/-- The metadata object the npm and pnpm parsers read the summary from
(`data.metadata.vulnerabilities`, `Json.null` when unreachable). -/
def auditMetaOf (data : Json) : Json :=
  match metaVulnsOpt data with
  | .ok mv? => mv?.getD Json.null
  | .error _ => Json.null

/-- A yarn-outdated NDJSON line that contributes no row: it fails to
parse, throws on the `type` access, or is not a `type: "table"` line. -/
def yarnLineNotTable (jp : String → Option Json) (line : String) : Bool :=
  match jp line with
  | Option.none => true
  | some parsed =>
    match jsGet parsed "type" with
    | .error _ => true
    | .ok t? => !(match t? with | some (Json.str s) => s == "table" | _ => false)

/-- A bun-outdated line skipped by the header/separator guard. -/
def bunLineSkipped (line : String) : Bool :=
  !strContains line "|" || strContains line "Package" || strContains line "---"

-- ===========================================================================
-- Concrete fixtures used by counterexamples and witnesses
-- ===========================================================================

/-- The npm-audit vulnerabilities arena of the chain fixture: `b`
depends on the vulnerable `c` (so `c.effects = ["b"]`), `b` is the
root. -/
def chainArena : List (String × Json) :=
  [("c", Json.obj
      [("name", Json.str "c"), ("severity", Json.str "high"),
       ("via", Json.arr [Json.obj [("title", Json.str "Bad regex")]]),
       ("effects", Json.arr [Json.str "b"]),
       ("fixAvailable", Json.bool true)]),
   ("b", Json.obj
      [("name", Json.str "b"), ("severity", Json.str "high"),
       ("via", Json.arr [Json.str "c"]),
       ("effects", Json.arr []),
       ("fixAvailable", Json.bool true)])]

/-- Full npm audit payload for the chain fixture. -/
def chainAudit : Json :=
  Json.obj
    [("vulnerabilities", Json.obj chainArena),
     ("metadata", Json.obj
        [("vulnerabilities", Json.obj
            [("info", Json.num 0), ("low", Json.num 0), ("moderate", Json.num 0),
             ("high", Json.num 2), ("critical", Json.num 0), ("total", Json.num 2)])])]

/-- A pnpm audit payload with one fixable advisory. -/
def pnpmFixAudit : Json :=
  Json.obj
    [("advisories", Json.obj
        [("1", Json.obj
            [("module_name", Json.str "lodash"), ("severity", Json.str "high"),
             ("title", Json.str "Proto"),
             ("patched_versions", Json.str ">=4.17.21"),
             ("findings", Json.arr
                [Json.obj
                   [("version", Json.str "4.17.20"),
                    ("paths", Json.arr [Json.str "a>lodash"])]])])]),
     ("metadata", Json.obj
        [("vulnerabilities", Json.obj
            [("critical", Json.num 0), ("high", Json.num 1), ("moderate", Json.num 0),
             ("low", Json.num 0), ("info", Json.num 0)])])]

/-- An npm audit payload whose metadata carries a `total` smaller than
its `critical` count (the parser copies both through unchecked). -/
def npmTotalCex : Json :=
  Json.obj
    [("metadata", Json.obj
        [("vulnerabilities", Json.obj
            [("critical", Json.num 5), ("total", Json.num 0)])]),
     ("vulnerabilities", Json.obj [])]

/-- A cyclic arena: `a.effects = ["b"]` and `b.effects = ["a"]`. -/
def cycleArena : List (String × Json) :=
  [("a", Json.obj [("name", Json.str "a"), ("effects", Json.arr [Json.str "b"])]),
   ("b", Json.obj [("name", Json.str "b"), ("effects", Json.arr [Json.str "a"])])]

-- ===========================================================================
-- C6 — update-type classification
-- ===========================================================================

/-- C6: `getUpdateType` returns `none` when either side fails to parse
as strict `major.minor.patch` (with optional prerelease/build); equal
triples give `none` even when prerelease tags differ; a patch-only
increase gives `patch`; an equal-major minor increase gives `minor`;
a major increase gives `major` regardless of lower components. -/
theorem semver_getUpdateType_classification :
    (∀ current latest : String,
      parseSemver current = Option.none ∨ parseSemver latest = Option.none →
        getUpdateType current latest = UpdateType.none) ∧
    (∀ current latest pc pl,
      parseSemver current = some pc → parseSemver latest = some pl →
      pc.major = pl.major → pc.minor = pl.minor → pc.patch = pl.patch →
        getUpdateType current latest = UpdateType.none) ∧
    (∀ current latest pc pl,
      parseSemver current = some pc → parseSemver latest = some pl →
      pc.major = pl.major → pc.minor = pl.minor → pc.patch < pl.patch →
        getUpdateType current latest = UpdateType.patch) ∧
    (∀ current latest pc pl,
      parseSemver current = some pc → parseSemver latest = some pl →
      pc.major = pl.major → pc.minor < pl.minor →
        getUpdateType current latest = UpdateType.minor) ∧
    (∀ current latest pc pl,
      parseSemver current = some pc → parseSemver latest = some pl →
      pc.major < pl.major →
        getUpdateType current latest = UpdateType.major) := by
  refine ⟨?_, ?_, ?_, ?_, ?_⟩
  · intro current latest h
    rcases h with h | h
    · simp [getUpdateType, h]
    · rcases hc : parseSemver current with _ | pc <;> simp [getUpdateType, hc, h]
  · intro current latest pc pl hc hl h1 h2 h3
    simp only [getUpdateType, hc, hl]
    rw [if_pos ⟨h1, h2, h3⟩]
  · intro current latest pc pl hc hl h1 h2 h3
    simp only [getUpdateType, hc, hl]
    rw [if_neg (by omega), if_neg (by omega), if_neg (by omega), if_pos (by omega)]
  · intro current latest pc pl hc hl h1 h2
    simp only [getUpdateType, hc, hl]
    rw [if_neg (by omega), if_neg (by omega), if_pos (by omega)]
  · intro current latest pc pl hc hl h1
    simp only [getUpdateType, hc, hl]
    rw [if_neg (by omega), if_pos (by omega)]

/-- Witness for C6 at concrete versions. -/
theorem semver_getUpdateType_classification_witness :
    getUpdateType "not-a-version" "1.2.3" = UpdateType.none ∧
    getUpdateType "1.2.3-alpha" "1.2.3+build" = UpdateType.none ∧
    getUpdateType "1.2.3" "1.2.4" = UpdateType.patch ∧
    getUpdateType "1.2.9" "1.3.0" = UpdateType.minor ∧
    getUpdateType "1.9.9" "2.0.0" = UpdateType.major :=
  ⟨semver_getUpdateType_classification.1 _ _ (Or.inl (by decide)),
   semver_getUpdateType_classification.2.1 "1.2.3-alpha" "1.2.3+build"
     ⟨1, 2, 3, some "alpha", Option.none⟩ ⟨1, 2, 3, Option.none, some "build"⟩
     (by decide) (by decide) rfl rfl rfl,
   semver_getUpdateType_classification.2.2.1 "1.2.3" "1.2.4"
     ⟨1, 2, 3, Option.none, Option.none⟩ ⟨1, 2, 4, Option.none, Option.none⟩
     (by decide) (by decide) rfl rfl (by decide),
   semver_getUpdateType_classification.2.2.2.1 "1.2.9" "1.3.0"
     ⟨1, 2, 9, Option.none, Option.none⟩ ⟨1, 3, 0, Option.none, Option.none⟩
     (by decide) (by decide) rfl (by decide),
   semver_getUpdateType_classification.2.2.2.2 "1.9.9" "2.0.0"
     ⟨1, 9, 9, Option.none, Option.none⟩ ⟨2, 0, 0, Option.none, Option.none⟩
     (by decide) (by decide) (by decide)⟩

-- ===========================================================================
-- C9 — risk score sum and level thresholds
-- ===========================================================================

/-- C9: the risk score is the unweighted sum of the four factor scores,
the level is derived from it, and the thresholds are 0–25 low,
26–50 medium, 51–75 high, above 75 critical (boundary values
25/26/50/51/75/76 included explicitly). -/
theorem risk_score_sum_and_levels :
    (∀ fromV toV filePaths cov,
      (assessRiskCore fromV toV filePaths cov).riskScore =
        (assessRiskCore fromV toV filePaths cov).factors.updateType.score +
        (assessRiskCore fromV toV filePaths cov).factors.usageScope.score +
        (assessRiskCore fromV toV filePaths cov).factors.criticalPaths.score +
        (assessRiskCore fromV toV filePaths cov).factors.testCoverage.score ∧
      (assessRiskCore fromV toV filePaths cov).riskLevel =
        getRiskLevel (assessRiskCore fromV toV filePaths cov).riskScore) ∧
    (∀ s : Nat, s ≤ 25 → getRiskLevel s = RiskLevel.low) ∧
    (∀ s : Nat, 26 ≤ s → s ≤ 50 → getRiskLevel s = RiskLevel.medium) ∧
    (∀ s : Nat, 51 ≤ s → s ≤ 75 → getRiskLevel s = RiskLevel.high) ∧
    (∀ s : Nat, 76 ≤ s → getRiskLevel s = RiskLevel.critical) ∧
    (getRiskLevel 25 = RiskLevel.low ∧ getRiskLevel 26 = RiskLevel.medium ∧
     getRiskLevel 50 = RiskLevel.medium ∧ getRiskLevel 51 = RiskLevel.high ∧
     getRiskLevel 75 = RiskLevel.high ∧ getRiskLevel 76 = RiskLevel.critical) := by
  refine ⟨fun fromV toV filePaths cov => ⟨rfl, rfl⟩, ?_, ?_, ?_, ?_, ?_⟩
  · intro s h
    unfold getRiskLevel
    rw [if_pos (by omega)]
  · intro s h1 h2
    unfold getRiskLevel
    rw [if_neg (by omega), if_pos (by omega)]
  · intro s h1 h2
    unfold getRiskLevel
    rw [if_neg (by omega), if_neg (by omega), if_pos (by omega)]
  · intro s h
    unfold getRiskLevel
    rw [if_neg (by omega), if_neg (by omega), if_neg (by omega)]
  · exact ⟨by decide, by decide, by decide, by decide, by decide, by decide⟩

/-- Witness for C9: a major upgrade of a package imported by one
`api/` file with no caller tests scores 40+10+10+10. -/
theorem risk_score_sum_and_levels_witness :
    getRiskLevel 10 = RiskLevel.low ∧ getRiskLevel 40 = RiskLevel.medium ∧
    getRiskLevel 60 = RiskLevel.high ∧ getRiskLevel 90 = RiskLevel.critical ∧
    (assessRiskCore "1.0.0" "2.0.0" ["src/api/handler.ts"] 0).riskLevel =
      getRiskLevel (assessRiskCore "1.0.0" "2.0.0" ["src/api/handler.ts"] 0).riskScore :=
  ⟨risk_score_sum_and_levels.2.1 10 (by omega),
   risk_score_sum_and_levels.2.2.1 40 (by omega) (by omega),
   risk_score_sum_and_levels.2.2.2.1 60 (by omega) (by omega),
   risk_score_sum_and_levels.2.2.2.2.1 90 (by omega),
   (risk_score_sum_and_levels.1 "1.0.0" "2.0.0" ["src/api/handler.ts"] 0).2⟩

-- ===========================================================================
-- C8 — metric score ranges
-- ===========================================================================

/-- C8 counterexample: with more outdated than total packages the
freshness score is negative — `(total, outdated) = (1, 2)` yields
`-100`, outside the claimed 0–100 range. -/
theorem freshness_score_negative_counterexample :
    (calculateDependencyFreshnessScore 1 2).score = -100 ∧
    ¬(0 ≤ (calculateDependencyFreshnessScore 1 2).score ∧
      (calculateDependencyFreshnessScore 1 2).score ≤ 100) := by
  have h : (calculateDependencyFreshnessScore 1 2).score = -100 := by
    show jsRound ((((1 : Int) - (2 : Int) : Int) : ℚ) / ((1 : Nat) : ℚ) * 100) = -100
    unfold jsRound
    rw [show ((((1 : Int) - (2 : Int) : Int) : ℚ) / ((1 : Nat) : ℚ) * 100 + 1 / 2 : ℚ)
          = -199 / 2 by norm_num]
    rw [Int.floor_eq_iff]
    norm_num
  refine ⟨h, ?_⟩
  rw [h]
  norm_num

/-- Half-up rounding keeps a value of [0, 100] inside [0, 100]. -/
theorem jsRound_bounds (q : ℚ) (h0 : 0 ≤ q) (h100 : q ≤ 100) :
    0 ≤ jsRound q ∧ jsRound q ≤ 100 := by
  unfold jsRound
  constructor
  · exact Int.le_floor.mpr (by push_cast; linarith)
  · have hfl : Int.floor (q + 1 / 2) < 101 :=
      Int.floor_lt.mpr (by push_cast; linarith)
    omega

/-- C8 amended: the freshness score is in 0–100 whenever
`outdated ≤ total`; the security and dead-code scores are always in
0–100; the coverage/tsconfig/linting calculators pass their input
sub-score through (0 when absent), so they are in range exactly when
the input is. -/
theorem quality_metric_score_ranges :
    (∀ total outdated : Nat, outdated ≤ total →
      0 ≤ (calculateDependencyFreshnessScore total outdated).score ∧
        (calculateDependencyFreshnessScore total outdated).score ≤ 100) ∧
    (∀ c h m l : Nat,
      0 ≤ (calculateSecurityScore c h m l).score ∧
        (calculateSecurityScore c h m l).score ≤ 100) ∧
    (∀ b1 b2 : Bool,
      0 ≤ (calculateDeadCodeScore b1 b2).score ∧
        (calculateDeadCodeScore b1 b2).score ≤ 100) ∧
    (∀ (found : Bool) (p? : Option Int), found = false ∨ p? = Option.none →
      (calculateTestCoverageScore found p?).score = 0) ∧
    (∀ p : Int, 0 ≤ p → p ≤ 100 →
      0 ≤ (calculateTestCoverageScore true (some p)).score ∧
        (calculateTestCoverageScore true (some p)).score ≤ 100) ∧
    (∀ (sc : Int) (d : String), 0 ≤ sc → sc ≤ 100 →
      0 ≤ (calculateTypescriptStrictnessScore true sc d).score ∧
        (calculateTypescriptStrictnessScore true sc d).score ≤ 100) ∧
    (∀ (sc : Int) (d : String), (calculateTypescriptStrictnessScore false sc d).score = 0) ∧
    (∀ (sc : Int) (d : String), 0 ≤ sc → sc ≤ 100 →
      0 ≤ (calculateLintingScore sc d).score ∧ (calculateLintingScore sc d).score ≤ 100) := by
  refine ⟨?_, ?_, ?_, ?_, ?_, ?_, ?_, ?_⟩
  · intro t o h
    unfold calculateDependencyFreshnessScore
    by_cases ht : t = 0
    · rw [if_pos ht]; exact ⟨by norm_num, by norm_num⟩
    · rw [if_neg ht]
      have ht0 : (0:ℚ) < (t:ℚ) := by exact_mod_cast Nat.pos_of_ne_zero ht
      have hoq : (o:ℚ) ≤ (t:ℚ) := by exact_mod_cast h
      have ho0 : (0:ℚ) ≤ (o:ℚ) := by positivity
      have hcast : (((t : Int) - (o : Int) : Int) : ℚ) = (t:ℚ) - (o:ℚ) := by push_cast; ring
      have hq0 : (0:ℚ) ≤ ((((t : Int) - (o : Int) : Int) : ℚ) / (t:ℚ)) * 100 := by
        rw [hcast]
        apply mul_nonneg (div_nonneg (by linarith) ht0.le) (by norm_num)
      have hq100 : ((((t : Int) - (o : Int) : Int) : ℚ) / (t:ℚ)) * 100 ≤ 100 := by
        rw [hcast]
        have hdiv : ((t:ℚ) - (o:ℚ)) / (t:ℚ) ≤ 1 := (div_le_one ht0).mpr (by linarith)
        nlinarith
      exact jsRound_bounds _ hq0 hq100
  · intro c h m l
    unfold calculateSecurityScore
    by_cases h0 : c + h + m + l = 0
    · rw [if_pos h0]; exact ⟨by norm_num, by norm_num⟩
    · rw [if_neg h0]
      refine ⟨le_max_left 0 _, ?_⟩
      have hd : (0:Int) ≤ (c:Int) * 25 + (h:Int) * 15 + (m:Int) * 5 + (l:Int) * 2 := by
        positivity
      rw [max_le_iff]
      exact ⟨by norm_num, by omega⟩
  · intro b1 b2
    cases b1 <;> cases b2 <;> exact ⟨by decide, by decide⟩
  · intro found p? h
    rcases h with h | h
    · subst h; rfl
    · subst h; cases found <;> rfl
  · intro p h1 h2
    exact ⟨h1, h2⟩
  · intro sc d h1 h2
    exact ⟨h1, h2⟩
  · intro sc d
    rfl
  · intro sc d h1 h2
    exact ⟨h1, h2⟩

/-- Witness for C8 at concrete inputs. -/
theorem quality_metric_score_ranges_witness :
    (0 ≤ (calculateDependencyFreshnessScore 4 1).score ∧
      (calculateDependencyFreshnessScore 4 1).score ≤ 100) ∧
    (0 ≤ (calculateSecurityScore 1 2 3 4).score ∧
      (calculateSecurityScore 1 2 3 4).score ≤ 100) ∧
    (calculateTestCoverageScore false (some 35)).score = 0 ∧
    (0 ≤ (calculateTestCoverageScore true (some 35)).score ∧
      (calculateTestCoverageScore true (some 35)).score ≤ 100) :=
  ⟨quality_metric_score_ranges.1 4 1 (by omega),
   quality_metric_score_ranges.2.1 1 2 3 4,
   quality_metric_score_ranges.2.2.2.1 false (some 35) (Or.inl rfl),
   quality_metric_score_ranges.2.2.2.2.1 35 (by omega) (by omega)⟩

-- ===========================================================================
-- C5 — package-manager detection priority
-- ===========================================================================

/-- C5: the detector picks the manager by strict priority
bun > pnpm > yarn > npm among present lockfiles (`specPriorityChoice`
spells out that order); with both `bun.lock` and `yarn.lock` present it
returns bun with both lockfiles recorded and the multiple-lockfiles
flag set; with no lockfile it follows a `packageManager` manifest field
naming one of the four managers, and otherwise defaults to npm. -/
theorem detectPackageManager_priority :
    ((detectPackageManager ["bun.lock", "yarn.lock"] Option.none).name =
        PackageManagerName.bun ∧
      (detectPackageManager ["bun.lock", "yarn.lock"] Option.none).hasMultipleLockfiles =
        true ∧
      "bun.lock" ∈ (detectPackageManager ["bun.lock", "yarn.lock"] Option.none).detectedLockfiles ∧
      "yarn.lock" ∈ (detectPackageManager ["bun.lock", "yarn.lock"] Option.none).detectedLockfiles) ∧
    (∀ files spec pm, specPriorityChoice files = some pm →
      (detectPackageManager files spec).name = pm) ∧
    (∀ files s pm, detectLockfiles files = [] → parseCorepackSpec s = some pm →
      (detectPackageManager files (some s)).name = pm ∧
      (detectPackageManager files (some s)).lockfile = Option.none) ∧
    (∀ files, detectLockfiles files = [] →
      (detectPackageManager files Option.none).name = PackageManagerName.npm) ∧
    (∀ files s, detectLockfiles files = [] → parseCorepackSpec s = Option.none →
      (detectPackageManager files (some s)).name = PackageManagerName.npm) := by
  refine ⟨⟨by decide, by decide, by decide, by decide⟩, ?_, ?_, ?_, ?_⟩
  · intro files spec pm h
    by_cases h1 : files.contains "bun.lock" <;>
      by_cases h2 : files.contains "bun.lockb" <;>
      by_cases h3 : files.contains "pnpm-lock.yaml" <;>
      by_cases h4 : files.contains "yarn.lock" <;>
      by_cases h5 : files.contains "package-lock.json" <;>
      simp_all [detectPackageManager, detectLockfiles, specPriorityChoice,
        packageManagersList, bunLockfiles, List.find?]
  · intro files s pm h1 h2
    have hs : s ≠ "" := by
      intro he
      rw [he, show parseCorepackSpec "" = Option.none from by decide] at h2
      cases h2
    simp only [detectPackageManager, h1]
    rw [if_pos hs, h2]
    cases pm <;> exact ⟨rfl, rfl⟩
  · intro files h1
    simp only [detectPackageManager, h1]
    rfl
  · intro files s h1 h2
    simp only [detectPackageManager, h1]
    by_cases hs : s ≠ ""
    · rw [if_pos hs, h2]; rfl
    · rw [if_neg hs]; rfl

/-- Witness for C5 at concrete directories. -/
theorem detectPackageManager_priority_witness :
    (detectPackageManager ["package-lock.json", "pnpm-lock.yaml"] Option.none).name =
      PackageManagerName.pnpm ∧
    (detectPackageManager [] (some "yarn@4.0.2")).name = PackageManagerName.yarn ∧
    (detectPackageManager [] Option.none).name = PackageManagerName.npm ∧
    (detectPackageManager ["readme.md"] (some "cargo@1.0")).name = PackageManagerName.npm :=
  ⟨detectPackageManager_priority.2.1 _ Option.none PackageManagerName.pnpm (by decide),
   (detectPackageManager_priority.2.2.1 [] "yarn@4.0.2" PackageManagerName.yarn
     (by decide) (by decide)).1,
   detectPackageManager_priority.2.2.2.1 [] (by decide),
   detectPackageManager_priority.2.2.2.2 ["readme.md"] "cargo@1.0" (by decide) (by decide)⟩

-- ===========================================================================
-- C1 — outdated parsers on degenerate input
-- ===========================================================================

/-- Folding list-append of per-item results yields the accumulator
unchanged when every item contributes nothing. -/
theorem foldl_append_eq_nil {α β : Type} (f : β → List α) (lines : List β)
    (acc : List α) (h : ∀ l ∈ lines, f l = []) :
    lines.foldl (fun acc l => acc ++ f l) acc = acc := by
  induction lines generalizing acc with
  | nil => rfl
  | cons x xs ih =>
    have hx := h x (by simp)
    simp only [List.foldl_cons, hx, List.append_nil]
    exact ih acc fun l hl => h l (by simp [hl])

/-- A yarn-outdated line that is not a well-formed `type: "table"` line
contributes no packages. -/
theorem yarnLineNotTable_no_rows (jp : String → Option Json) (line : String)
    (h : yarnLineNotTable jp line = true) : yarnOutdatedLine jp line = [] := by
  unfold yarnLineNotTable at h
  unfold yarnOutdatedLine
  cases hjp : jp line with
  | none => rfl
  | some parsed =>
    simp only [hjp] at h ⊢
    cases hg : jsGet parsed "type" with
    | error e => simp [hg]
    | ok t? =>
      simp only [hg] at h ⊢
      simp only [Bool.not_eq_eq_eq_not, Bool.not_true] at h
      rw [if_neg (by simp [h])]

/-- A bun-outdated line hit by the header/separator guard contributes
no packages. -/
theorem bunLineSkipped_no_rows (line : String) (h : bunLineSkipped line = true) :
    bunOutdatedLine line = [] := by
  unfold bunLineSkipped at h
  unfold bunOutdatedLine
  rw [if_pos (by simp_all)]

/-- C1: each of the four outdated parsers is a total function into a
plain list (the JS `catch`/skip paths are its `[]` branches, so no
exception escapes), and returns `[]` on whitespace-only input, on input
whose JSON parse fails (`jp _ = none`), and on input with no matching
rows (an entry-less JSON value for npm/pnpm, no `type: "table"` line
for yarn, only header/separator/`|`-less lines for bun; bun has no
empty-input guard but the empty string splits into one guarded line). -/
theorem outdated_parsers_empty_on_degenerate :
    (∀ jp output, jsTrim output = "" → parseNpmOutdated jp output = []) ∧
    (∀ jp output, jp output = Option.none → parseNpmOutdated jp output = []) ∧
    (∀ jp output data, jp output = some data → jsEntries data = .ok [] →
      parseNpmOutdated jp output = []) ∧
    (∀ jp output, jsTrim output = "" → parsePnpmOutdated jp output = []) ∧
    (∀ jp output, jp output = Option.none → parsePnpmOutdated jp output = []) ∧
    (∀ jp output data, jp output = some data → jsEntries data = .ok [] →
      parsePnpmOutdated jp output = []) ∧
    (∀ jp output, jsTrim output = "" → parseYarnOutdated jp output = []) ∧
    (∀ jp output,
      (∀ line ∈ strSplitOnChar (jsTrim output) '\n', yarnLineNotTable jp line = true) →
      parseYarnOutdated jp output = []) ∧
    parseBunOutdated "" = [] ∧
    (∀ output, (∀ line ∈ strSplitOnChar output '\n', bunLineSkipped line = true) →
      parseBunOutdated output = []) := by
  refine ⟨?_, ?_, ?_, ?_, ?_, ?_, ?_, ?_, by decide, ?_⟩
  · intro jp output h
    simp [parseNpmOutdated, h]
  · intro jp output h
    by_cases he : jsTrim output = "" <;> simp [parseNpmOutdated, he, h]
  · intro jp output data h1 h2
    by_cases he : jsTrim output = "" <;>
      simp [parseNpmOutdated, npmOutdatedBody, he, h1, h2, Bind.bind, Except.bind,
        List.mapM, List.mapM.loop, Pure.pure, Except.pure]
  · intro jp output h
    simp [parsePnpmOutdated, h]
  · intro jp output h
    by_cases he : jsTrim output = "" <;> simp [parsePnpmOutdated, he, h]
  · intro jp output data h1 h2
    by_cases he : jsTrim output = "" <;>
      simp [parsePnpmOutdated, pnpmOutdatedBody, he, h1, h2, Bind.bind, Except.bind,
        List.mapM, List.mapM.loop, Pure.pure, Except.pure]
  · intro jp output h
    simp [parseYarnOutdated, h]
  · intro jp output h
    by_cases he : jsTrim output = ""
    · simp [parseYarnOutdated, he]
    · simp only [parseYarnOutdated, if_neg he]
      exact foldl_append_eq_nil _ _ _ fun l hl => yarnLineNotTable_no_rows jp l (h l hl)
  · intro output h
    unfold parseBunOutdated
    exact foldl_append_eq_nil _ _ _ fun l hl => bunLineSkipped_no_rows l (h l hl)

/-- Witness for C1 at concrete degenerate inputs. -/
theorem outdated_parsers_empty_on_degenerate_witness :
    parseNpmOutdated (fun _ => Option.none) "   " = [] ∧
    parseNpmOutdated (fun _ => Option.none) "not json at all" = [] ∧
    parseNpmOutdated (fun _ => some (Json.obj [])) "{}" = [] ∧
    parsePnpmOutdated (fun _ => Option.none) "also not json" = [] ∧
    parsePnpmOutdated (fun _ => some (Json.obj [])) "{}" = [] ∧
    parseYarnOutdated (fun _ => Option.none) "junk line" = [] ∧
    parseYarnOutdated
      (fun line => if line = "a" then some (Json.obj [("type", Json.str "info")]) else Option.none)
      "a\nb" = [] ∧
    parseBunOutdated "" = [] ∧
    parseBunOutdated "| Package | Current | Update | Latest |\n|---|---|---|---|" = [] :=
  ⟨outdated_parsers_empty_on_degenerate.1 _ "   " (by decide),
   outdated_parsers_empty_on_degenerate.2.1 _ "not json at all" rfl,
   outdated_parsers_empty_on_degenerate.2.2.1 _ "{}" (Json.obj []) rfl rfl,
   outdated_parsers_empty_on_degenerate.2.2.2.2.1 _ "also not json" rfl,
   outdated_parsers_empty_on_degenerate.2.2.2.2.2.1 _ "{}" (Json.obj []) rfl rfl,
   outdated_parsers_empty_on_degenerate.2.2.2.2.2.2.2.1 _ "junk line" (by decide),
   outdated_parsers_empty_on_degenerate.2.2.2.2.2.2.2.1 _ "a\nb" (by decide),
   outdated_parsers_empty_on_degenerate.2.2.2.2.2.2.2.2.1,
   outdated_parsers_empty_on_degenerate.2.2.2.2.2.2.2.2.2 _ (by decide)⟩

-- ===========================================================================
-- C4 — cycle-safe termination of the npm path builder
-- ===========================================================================

/-- A successful object lookup means the key is among the keys. -/
theorem mem_keys_of_lookup (fields : List (String × Json)) (key : String) (v : Json)
    (h : Json.lookup fields key = some v) : key ∈ fields.map Prod.fst := by
  rcases hf : fields.find? (fun kv => kv.1 == key) with _ | kv
  · simp [Json.lookup, hf] at h
  · have hkv := List.mem_of_find?_eq_some hf
    have hp := List.find?_some hf
    exact List.mem_map.mpr ⟨kv, hkv, by simpa using hp⟩

/-- Visiting one more arena key strictly shrinks the unvisited count. -/
theorem unvisitedCount_cons_lt (allVulns : List (String × Json)) (name : String)
    (visited : List String) (hmem : name ∈ allVulns.map Prod.fst)
    (hnv : name ∉ visited) :
    unvisitedCount allVulns (name :: visited) < unvisitedCount allVulns visited := by
  simp only [unvisitedCount]
  have hsub :
      List.Sublist
        ((allVulns.map Prod.fst).filter fun k => decide (¬ k ∈ name :: visited))
        ((allVulns.map Prod.fst).filter fun k => decide (¬ k ∈ visited)) := by
    apply List.monotone_filter_right
    intro a ha
    simp only [decide_eq_true_eq, List.mem_cons] at ha ⊢
    tauto
  apply Nat.lt_of_le_of_ne hsub.length_le
  intro heq
  have heqlist := hsub.eq_of_length heq
  have hin :
      name ∈ ((allVulns.map Prod.fst).filter fun k => decide (¬ k ∈ visited)) :=
    List.mem_filter.mpr ⟨hmem, by simpa using hnv⟩
  rw [← heqlist] at hin
  have hcon := (List.mem_filter.mp hin).2
  simp at hcon

/-- Strong induction on the unvisited-key measure for the path-builder
chain-length bound. -/
theorem buildPathRecursive_bound_aux :
    ∀ (n : Nat) (allVulns : List (String × Json)) (name : String)
      (visited : List String) (ps : List String),
      unvisitedCount allVulns visited = n →
      buildPathRecursive allVulns name visited = Except.ok ps →
      ps.length ≤ unvisitedCount allVulns visited + 1 := by
  intro n
  induction n using Nat.strong_induction_on with
  | _ n ih =>
    intro allVulns name visited ps hn hps
    rw [buildPathRecursive.eq_def] at hps
    by_cases hv : name ∈ visited
    · rw [dif_pos hv] at hps
      cases hps
      simp
    · rw [dif_neg hv] at hps
      split at hps
      · cases hps
        simp
      · rename_i v hl
        split at hps
        · cases hps
          simp
        · split at hps
          · cases hps
          · split at hps
            · cases hps
            · cases hps
              simp
            · split at hps
              · cases hps
              · rename_i s hstr
                split at hps
                · cases hps
                · rename_i parentPath hrec
                  cases hps
                  have hmem := mem_keys_of_lookup _ _ _ hl
                  have hlt := unvisitedCount_cons_lt allVulns name visited hmem hv
                  have hpp :=
                    ih (unvisitedCount allVulns (name :: visited)) (by omega)
                      allVulns s (name :: visited) parentPath rfl hrec
                  simp only [List.length_append, List.length_cons, List.length_nil]
                  omega

/-- C4: the path builder is total for every arena — cyclic `effects`
and names absent from the map included — because the visited set
threaded through the recursion shrinks the unvisited-key count at every
step (this is the definition's own termination measure), and any chain
it returns is finite with length at most the number of distinct
unvisited arena keys plus one. -/
theorem buildPathRecursive_terminates_bounded :
    ∀ (allVulns : List (String × Json)) (name : String) (visited : List String)
      (ps : List String),
      buildPathRecursive allVulns name visited = Except.ok ps →
      ps.length ≤ unvisitedCount allVulns visited + 1 :=
  fun allVulns name visited ps h =>
    buildPathRecursive_bound_aux (unvisitedCount allVulns visited) allVulns name visited ps
      rfl h

-- ===========================================================================
-- Concrete evaluations of the path builder (it is defined by
-- well-founded recursion, so they are proved by layered unfolding)
-- ===========================================================================

/-- Evaluation: the chain fixture at the root entry `b`. -/
theorem chain_eval_b :
    buildPathRecursive
      [("c",
        Json.obj
          [("name", Json.str "c"), ("severity", Json.str "high"),
           ("via", Json.arr [Json.obj [("title", Json.str "Bad regex")]]),
           ("effects", Json.arr [Json.str "b"]),
           ("fixAvailable", Json.bool true)]),
       ("b",
        Json.obj
          [("name", Json.str "b"), ("severity", Json.str "high"),
           ("via", Json.arr [Json.str "c"]),
           ("effects", Json.arr []),
           ("fixAvailable", Json.bool true)])]
      "b" ["c"] = .ok ["b"] := by
  rw [buildPathRecursive.eq_def]; rfl

/-- Evaluation: the chain fixture at the vulnerable entry `c`. -/
theorem chain_eval_c :
    buildPathRecursive
      [("c",
        Json.obj
          [("name", Json.str "c"), ("severity", Json.str "high"),
           ("via", Json.arr [Json.obj [("title", Json.str "Bad regex")]]),
           ("effects", Json.arr [Json.str "b"]),
           ("fixAvailable", Json.bool true)]),
       ("b",
        Json.obj
          [("name", Json.str "b"), ("severity", Json.str "high"),
           ("via", Json.arr [Json.str "c"]),
           ("effects", Json.arr []),
           ("fixAvailable", Json.bool true)])]
      "c" [] = .ok ["b", "c"] := by
  rw [buildPathRecursive.eq_def]
  show (match buildPathRecursive
          [("c",
        Json.obj
          [("name", Json.str "c"), ("severity", Json.str "high"),
           ("via", Json.arr [Json.obj [("title", Json.str "Bad regex")]]),
           ("effects", Json.arr [Json.str "b"]),
           ("fixAvailable", Json.bool true)]),
       ("b",
        Json.obj
          [("name", Json.str "b"), ("severity", Json.str "high"),
           ("via", Json.arr [Json.str "c"]),
           ("effects", Json.arr []),
           ("fixAvailable", Json.bool true)])]
          "b" ["c"] with
        | .error _ => .error ()
        | .ok parentPath => .ok (parentPath ++ ["c"])) = Except.ok ["b", "c"]
  rw [chain_eval_b]; rfl

/-- Evaluation: the cyclic fixture, innermost call (cycle detected). -/
theorem cycle_eval_a2 : buildPathRecursive cycleArena "a" ["b", "a"] = .ok ["a"] := by
  rw [buildPathRecursive.eq_def]; rfl

/-- Evaluation: the cyclic fixture at `b` with `a` visited. -/
theorem cycle_eval_b : buildPathRecursive cycleArena "b" ["a"] = .ok ["a", "b"] := by
  rw [buildPathRecursive.eq_def]
  show (match buildPathRecursive cycleArena "a" ["b", "a"] with
        | .error _ => .error ()
        | .ok parentPath => .ok (parentPath ++ ["b"])) = Except.ok ["a", "b"]
  rw [cycle_eval_a2]; rfl

/-- Evaluation: the cyclic fixture terminates with a finite chain. -/
theorem cycle_eval_a : buildPathRecursive cycleArena "a" [] = .ok ["a", "b", "a"] := by
  rw [buildPathRecursive.eq_def]
  show (match buildPathRecursive cycleArena "b" ["a"] with
        | .error _ => .error ()
        | .ok parentPath => .ok (parentPath ++ ["a"])) = Except.ok ["a", "b", "a"]
  rw [cycle_eval_b]; rfl

/-- Witness for C4: on the two-node `effects` cycle the builder returns
the finite chain `["a", "b", "a"]`, within the proved bound. -/
theorem buildPathRecursive_terminates_bounded_witness :
    (["a", "b", "a"] : List String).length ≤ unvisitedCount cycleArena [] + 1 :=
  buildPathRecursive_terminates_bounded cycleArena "a" [] _ cycle_eval_a

-- ===========================================================================
-- C3 — direction of the emitted dependency path
-- ===========================================================================

/-- Evaluation: `buildNpmPath` on the chain fixture's vulnerable entry
`c` (whose dependent `b` is the root) emits `"c > b"`. -/
theorem chain_eval_path :
    buildNpmPath
      (Json.obj
        [("name", Json.str "c"), ("severity", Json.str "high"),
         ("via", Json.arr [Json.obj [("title", Json.str "Bad regex")]]),
         ("effects", Json.arr [Json.str "b"]),
         ("fixAvailable", Json.bool true)])
      [("c",
        Json.obj
          [("name", Json.str "c"), ("severity", Json.str "high"),
           ("via", Json.arr [Json.obj [("title", Json.str "Bad regex")]]),
           ("effects", Json.arr [Json.str "b"]),
           ("fixAvailable", Json.bool true)]),
       ("b",
        Json.obj
          [("name", Json.str "b"), ("severity", Json.str "high"),
           ("via", Json.arr [Json.str "c"]),
           ("effects", Json.arr []),
           ("fixAvailable", Json.bool true)])] = .ok "c > b" := by
  simp [buildNpmPath, Bind.bind, Except.bind, jsGet, Json.lookup, List.find?,
    asArrE, asStringE, chain_eval_c, Pure.pure, Except.pure, joinSep]

/-- Evaluation: the npm entry processor on the chain fixture's
vulnerable entry. -/
theorem chain_eval_entry :
    npmVulnEntry
      (Json.obj
        [("name", Json.str "c"), ("severity", Json.str "high"),
         ("via", Json.arr [Json.obj [("title", Json.str "Bad regex")]]),
         ("effects", Json.arr [Json.str "b"]),
         ("fixAvailable", Json.bool true)])
      [("c",
        Json.obj
          [("name", Json.str "c"), ("severity", Json.str "high"),
           ("via", Json.arr [Json.obj [("title", Json.str "Bad regex")]]),
           ("effects", Json.arr [Json.str "b"]),
           ("fixAvailable", Json.bool true)]),
       ("b",
        Json.obj
          [("name", Json.str "b"), ("severity", Json.str "high"),
           ("via", Json.arr [Json.str "c"]),
           ("effects", Json.arr []),
           ("fixAvailable", Json.bool true)])] =
      .ok (some ⟨"c", Severity.high, some (Json.str "Bad regex"), "c > b", true,
        Option.none⟩) := by
  simp [npmVulnEntry, chain_eval_path, extractNpmTitle, extractNpmFixVersion,
    jsGet, Json.lookup, List.find?, asArrE, asStringE, Bind.bind, Except.bind,
    Pure.pure, Except.pure, Json.truthy, Json.isStr, normalizeSeverity, toLowerStr]

/-- Evaluation: the npm entry loop over the chain fixture — the
passthrough entry `b` (whose `via` is the bare string `["c"]`) is
skipped, only `c` is emitted. -/
theorem chain_eval_entries :
    npmVulnEntries
      [("c",
        Json.obj
          [("name", Json.str "c"), ("severity", Json.str "high"),
           ("via", Json.arr [Json.obj [("title", Json.str "Bad regex")]]),
           ("effects", Json.arr [Json.str "b"]),
           ("fixAvailable", Json.bool true)]),
       ("b",
        Json.obj
          [("name", Json.str "b"), ("severity", Json.str "high"),
           ("via", Json.arr [Json.str "c"]),
           ("effects", Json.arr []),
           ("fixAvailable", Json.bool true)])]
      [("c",
        Json.obj
          [("name", Json.str "c"), ("severity", Json.str "high"),
           ("via", Json.arr [Json.obj [("title", Json.str "Bad regex")]]),
           ("effects", Json.arr [Json.str "b"]),
           ("fixAvailable", Json.bool true)]),
       ("b",
        Json.obj
          [("name", Json.str "b"), ("severity", Json.str "high"),
           ("via", Json.arr [Json.str "c"]),
           ("effects", Json.arr []),
           ("fixAvailable", Json.bool true)])] =
      .ok [⟨"c", Severity.high, some (Json.str "Bad regex"), "c > b", true,
        Option.none⟩] := by
  have hb : npmVulnEntry
      (Json.obj
        [("name", Json.str "b"), ("severity", Json.str "high"),
         ("via", Json.arr [Json.str "c"]),
         ("effects", Json.arr []),
         ("fixAvailable", Json.bool true)])
      [("c",
        Json.obj
          [("name", Json.str "c"), ("severity", Json.str "high"),
           ("via", Json.arr [Json.obj [("title", Json.str "Bad regex")]]),
           ("effects", Json.arr [Json.str "b"]),
           ("fixAvailable", Json.bool true)]),
       ("b",
        Json.obj
          [("name", Json.str "b"), ("severity", Json.str "high"),
           ("via", Json.arr [Json.str "c"]),
           ("effects", Json.arr []),
           ("fixAvailable", Json.bool true)])] = .ok Option.none := rfl
  simp [npmVulnEntries, chain_eval_entry, hb, Bind.bind, Except.bind,
    Pure.pure, Except.pure]

/-- Evaluation: the full npm audit parse of the chain fixture. -/
theorem chainAudit_parse_eval :
    parseNpmAuditJson chainAudit =
      .ok ⟨[⟨"c", Severity.high, some (Json.str "Bad regex"), "c > b", true,
          Option.none⟩],
        ⟨0, 2, 0, 0, 2⟩⟩ := by
  simp [parseNpmAuditJson, chainAudit, chainArena, chain_eval_entries, metaVulnsOpt,
    orEmptyObj, jsEntries, jsGet, Json.lookup, List.find?, jsTruthy, Json.truthy,
    npmSummaryOfMeta, jsCount, Bind.bind, Except.bind, Pure.pure, Except.pure]

/-- C3: on the chain fixture (`b` depends on the vulnerable `c`, i.e.
`c.effects = ["b"]`) the emitted path is `"c > b"` — the vulnerable
package first and the root last — not the claimed root-to-leaf order
`"b > c"`: `buildNpmPath` builds the root-first list and then reverses
it, contradicting its own `Reverse to get root > ... > vulnerable`
comment. -/
theorem audit_npm_path_vulnerable_first :
    (parseNpmAuditJson chainAudit).map
        (fun r => r.vulnerabilities.map (fun v => v.path)) = .ok ["c > b"] ∧
    ("c > b" : String) ≠ "b > c" := by
  constructor
  · rw [chainAudit_parse_eval]; rfl
  · decide

-- ===========================================================================
-- C2 — passthrough entries are excluded, summary comes from metadata
-- ===========================================================================

/-- Any successfully processed npm entry is either skipped (exactly
when it is a passthrough: a one-element bare-string `via`) or emitted
as `some` vulnerability. -/
theorem npmVulnEntry_result_char (vuln : Json) (ctx : List (String × Json))
    (r : Option Vulnerability) (h : npmVulnEntry vuln ctx = .ok r) :
    (r = Option.none ∧ npmPassthrough vuln = true) ∨
    ((∃ v, r = some v) ∧ npmPassthrough vuln = false) := by
  unfold npmVulnEntry at h
  rcases hg : jsGet vuln "via" with u | v?
  · simp [hg, Bind.bind, Except.bind] at h
  · simp only [hg, Bind.bind, Except.bind] at h
    rcases ha : asArrE v? with u | via
    · simp [ha, Bind.bind, Except.bind] at h
    · simp only [ha, Bind.bind, Except.bind] at h
      have hv? : v? = some (Json.arr via) := by
        cases v? with
        | none => simp [asArrE] at ha
        | some j => cases j <;> simp_all [asArrE]
      have hpass : npmPassthrough vuln = (via.any Json.isStr && via.length == 1) := by
        simp [npmPassthrough, hg, hv?]
      by_cases hc : (via.any Json.isStr && via.length == 1) = true
      · rw [if_pos hc] at h
        simp only [Pure.pure, Except.pure, Except.ok.injEq] at h
        exact Or.inl ⟨h.symm, by rw [hpass, hc]⟩
      · rw [if_neg hc] at h
        refine Or.inr ⟨?_, by rw [hpass]; exact Bool.of_not_eq_true hc⟩
        rcases ht : extractNpmTitle via with u | title
        · simp [ht, Bind.bind, Except.bind] at h
        · simp only [ht, Bind.bind, Except.bind] at h
          rcases hf : jsGet vuln "fixAvailable" with u | fa?
          · simp [hf, Bind.bind, Except.bind] at h
          · simp only [hf, Bind.bind, Except.bind] at h
            rcases hfv : extractNpmFixVersion fa? with u | fv
            · simp [hfv, Bind.bind, Except.bind] at h
            · simp only [hfv, Bind.bind, Except.bind] at h
              rcases hp : buildNpmPath vuln ctx with u | path
              · simp [hp, Bind.bind, Except.bind] at h
              · simp only [hp, Bind.bind, Except.bind] at h
                rcases hn : jsGet vuln "name" with u | n?
                · simp [hn, Bind.bind, Except.bind] at h
                · simp only [hn, Bind.bind, Except.bind] at h
                  rcases hn2 : asStringE n? with u | name
                  · simp [hn2, Bind.bind, Except.bind] at h
                  · simp only [hn2, Bind.bind, Except.bind] at h
                    rcases hs : jsGet vuln "severity" with u | s?
                    · simp [hs, Bind.bind, Except.bind] at h
                    · simp only [hs, Bind.bind, Except.bind] at h
                      rcases hs2 : asStringE s? with u | sev
                      · simp [hs2, Bind.bind, Except.bind] at h
                      · simp only [hs2, Bind.bind, Except.bind, Pure.pure,
                          Except.pure, Except.ok.injEq] at h
                        exact ⟨_, h.symm⟩

/-- The npm entry loop emits exactly one vulnerability per
non-passthrough entry. -/
theorem npmVulnEntries_length (ctx : List (String × Json)) :
    ∀ (es : List (String × Json)) (l : List Vulnerability),
      npmVulnEntries ctx es = .ok l →
      l.length = (es.filter fun e => !npmPassthrough e.2).length := by
  intro es
  induction es with
  | nil =>
    intro l h
    simp only [npmVulnEntries, Except.ok.injEq] at h
    simp [← h]
  | cons kv rest ih =>
    obtain ⟨k, v⟩ := kv
    intro l h
    simp only [npmVulnEntries, Bind.bind, Except.bind] at h
    rcases he : npmVulnEntry v ctx with u | r
    · rw [he] at h; cases h
    · rw [he] at h
      rcases npmVulnEntry_result_char v ctx r he with ⟨hr, hp⟩ | ⟨⟨vv, hr⟩, hp⟩
      · subst hr
        simp only [List.filter_cons, hp, Bool.not_true]
        exact ih l h
      · subst hr
        rcases hrec : npmVulnEntries ctx rest with u | vs
        · rw [hrec] at h; cases h
        · rw [hrec] at h
          simp only [Pure.pure, Except.pure, Except.ok.injEq] at h
          subst h
          simp [List.filter_cons, hp, ih vs hrec]

/-- Excluding a present element makes the filtered list strictly
shorter. -/
theorem filter_length_lt_of_mem_not {α : Type} (l : List α) (p : α → Bool) (a : α)
    (ha : a ∈ l) (hpa : p a = false) : (l.filter p).length < l.length := by
  apply Nat.lt_of_le_of_ne (List.length_filter_le p l)
  intro heq
  have hs := List.filter_sublist (p := p) l
  have heql := hs.eq_of_length heq
  have ha' : a ∈ l.filter p := by rw [heql]; exact ha
  have := (List.mem_filter.mp ha').2
  rw [hpa] at this
  cases this

/-- A successful npm audit parse is the entry-loop output over
`Object.entries(data.vulnerabilities ?? {})` paired with the summary
read from `data.metadata.vulnerabilities`. -/
theorem parseNpmAuditJson_shape (data : Json) (r : AuditResult)
    (h : parseNpmAuditJson data = .ok r) :
    (∃ es, npmEntriesOf data = .ok es ∧ npmVulnEntries es es = .ok r.vulnerabilities) ∧
    npmSummaryOfMeta (auditMetaOf data) = .ok r.summary := by
  unfold parseNpmAuditJson at h
  rcases hm : metaVulnsOpt data with u | mv?
  · simp [hm, Bind.bind, Except.bind] at h
  · simp only [hm, Bind.bind, Except.bind] at h
    cases htr : jsTruthy mv? with
    | false => rw [htr] at h; simp at h
    | true =>
      rw [htr] at h
      simp only [Bool.not_true, Bool.false_eq_true, if_false] at h
      rcases hv : jsGet data "vulnerabilities" with u | v?
      · simp [hv, Bind.bind, Except.bind] at h
      · simp only [hv, Bind.bind, Except.bind] at h
        rcases hes : jsEntries (orEmptyObj v?) with u | es
        · simp [hes, Bind.bind, Except.bind] at h
        · simp only [hes, Bind.bind, Except.bind] at h
          rcases hve : npmVulnEntries es es with u | vs
          · simp [hve, Bind.bind, Except.bind] at h
          · simp only [hve, Bind.bind, Except.bind] at h
            rcases hsum : npmSummaryOfMeta (mv?.getD Json.null) with u | s
            · simp [hsum, Bind.bind, Except.bind] at h
            · simp only [hsum, Bind.bind, Except.bind, Pure.pure, Except.pure,
                Except.ok.injEq] at h
              subst h
              refine ⟨⟨es, ?_, hve⟩, ?_⟩
              · simp [npmEntriesOf, hv, Bind.bind, Except.bind, hes]
              · simpa [auditMetaOf, hm] using hsum

/-- C2: on every npm audit payload accepted by the parser, an entry
whose `via` is a single bare string contributes nothing to the emitted
vulnerability list (which has exactly one element per non-passthrough
entry, hence strictly fewer than the map has entries), while the
summary is read from `metadata.vulnerabilities` only, unchanged by the
omission. -/
theorem npm_audit_passthrough_excluded :
    ∀ (data : Json) (r : AuditResult) (es : List (String × Json)) (k : String) (v : Json),
      parseNpmAuditJson data = .ok r →
      npmEntriesOf data = .ok es →
      (k, v) ∈ es →
      npmPassthrough v = true →
      r.vulnerabilities.length = (es.filter fun e => !npmPassthrough e.2).length ∧
      r.vulnerabilities.length < es.length ∧
      npmSummaryOfMeta (auditMetaOf data) = .ok r.summary := by
  intro data r es k v hparse hentries hmem hpass
  obtain ⟨⟨es2, hes2, hve2⟩, hsum⟩ := parseNpmAuditJson_shape data r hparse
  rw [hentries] at hes2
  have hee : es = es2 := by cases hes2; rfl
  subst hee
  have hlen := npmVulnEntries_length es es r.vulnerabilities hve2
  refine ⟨hlen, ?_, hsum⟩
  rw [hlen]
  exact filter_length_lt_of_mem_not es _ (k, v) hmem (by simp [hpass])

/-- Witness for C2: in the chain fixture the passthrough entry `b`
(`via = ["c"]`) is omitted — one emitted vulnerability for two map
entries — and the summary is the metadata counts. -/
theorem npm_audit_passthrough_excluded_witness :
    ([⟨"c", Severity.high, some (Json.str "Bad regex"), "c > b", true, Option.none⟩] :
        List Vulnerability).length < chainArena.length ∧
    npmSummaryOfMeta (auditMetaOf chainAudit) = .ok (⟨0, 2, 0, 0, 2⟩ : AuditSummary) := by
  have h := npm_audit_passthrough_excluded chainAudit
    ⟨[⟨"c", Severity.high, some (Json.str "Bad regex"), "c > b", true, Option.none⟩],
      ⟨0, 2, 0, 0, 2⟩⟩
    chainArena "b"
    (Json.obj
      [("name", Json.str "b"), ("severity", Json.str "high"),
       ("via", Json.arr [Json.str "c"]), ("effects", Json.arr []),
       ("fixAvailable", Json.bool true)])
    chainAudit_parse_eval rfl (by simp [chainArena]) rfl
  exact ⟨h.2.1, h.2.2⟩

-- ===========================================================================
-- C10 — fixAvailable is defined as fixVersion presence (pnpm/yarn)
-- ===========================================================================

/-- Successful `Except` bind chains decompose pointwise. -/
theorem bind_eq_ok {ε α β : Type} (x : Except ε α) (f : α → Except ε β) (b : β) :
    (Bind.bind x f = Except.ok b) ↔ ∃ a, x = Except.ok a ∧ f a = Except.ok b := by
  cases x <;> simp [Bind.bind, Except.bind]

/-- Every vulnerability built by the pnpm advisory processor has
`fixAvailable` equal to the presence of `fixVersion` (the code sets
`fixAvailable: fixVersion !== null`). -/
theorem pnpmAdvisoryEntry_fixInv (advisory : Json) (v : Vulnerability)
    (h : pnpmAdvisoryEntry advisory = .ok v) :
    v.fixAvailable = v.fixVersion.isSome := by
  unfold pnpmAdvisoryEntry at h
  rw [bind_eq_ok] at h
  obtain ⟨f?, -, h⟩ := h
  split at h
  all_goals simp only [bind_eq_ok, Pure.pure, Except.pure, Except.ok.injEq] at h
  all_goals
    obtain ⟨y, -, paths, -, mn?, -, pathStr, -, pv?, -, fv, -, pkg, -,
      s?, -, sev, -, title?, -, hv⟩ := h
  all_goals subst hv
  all_goals simp [Option.isSome_map]

/-- The same invariant for the yarn advisory-line processor. -/
theorem yarnAdvisoryLine_fixInv (parsed : Json) (v : Vulnerability)
    (h : yarnAdvisoryLine parsed = .ok v) :
    v.fixAvailable = v.fixVersion.isSome := by
  simp only [yarnAdvisoryLine, bind_eq_ok] at h
  obtain ⟨d?, -, hrest⟩ := h
  rcases d? with _ | j
  · simp at hrest
  · cases j
    case null => simp at hrest
    all_goals
      simp only [bind_eq_ok, Pure.pure, Except.pure, Except.ok.injEq] at hrest
    all_goals
      obtain ⟨res?, -, adv?, -, pv?, -, fv, -, mn?, -, pkg, -, s?, -, sev, -,
        title?, -, p?, -, p, -, hv⟩ := hrest
    all_goals subst hv
    all_goals simp [Option.isSome_map]

/-- The invariant lifts to the pnpm advisory loop. -/
theorem pnpmAdvisoryEntries_fixInv :
    ∀ (es : List (String × Json)) (l : List Vulnerability),
      pnpmAdvisoryEntries es = .ok l →
      ∀ v ∈ l, v.fixAvailable = v.fixVersion.isSome := by
  intro es
  induction es with
  | nil =>
    intro l h
    simp only [pnpmAdvisoryEntries, Except.ok.injEq] at h
    subst h
    intro v hv
    cases hv
  | cons kv rest ih =>
    obtain ⟨k, adv⟩ := kv
    intro l h
    simp only [pnpmAdvisoryEntries, bind_eq_ok, Pure.pure, Except.pure,
      Except.ok.injEq] at h
    obtain ⟨v0, hv0, vs, hvs, hl⟩ := h
    subst hl
    intro v hv
    rcases List.mem_cons.mp hv with hv | hv
    · rw [hv]
      exact pnpmAdvisoryEntry_fixInv adv v0 hv0
    · exact ih vs hvs v hv

/-- The invariant holds for every vulnerability of a successful pnpm
audit parse. -/
theorem parsePnpmAuditJson_fixInv (data : Json) (r : AuditResult)
    (h : parsePnpmAuditJson data = .ok r) :
    ∀ v ∈ r.vulnerabilities, v.fixAvailable = v.fixVersion.isSome := by
  unfold parsePnpmAuditJson at h
  rw [bind_eq_ok] at h
  obtain ⟨e?, -, h⟩ := h
  split at h
  · simp at h
  · rw [bind_eq_ok] at h
    obtain ⟨mv?, -, h⟩ := h
    split at h
    · simp at h
    · simp only [bind_eq_ok, Pure.pure, Except.pure, Except.ok.injEq] at h
      obtain ⟨a?, -, es, -, vs, hvs, s, -, hr⟩ := h
      subst hr
      exact pnpmAdvisoryEntries_fixInv es vs hvs

/-- A yarn fold step preserves the invariant on the accumulated list. -/
theorem yarnAuditLine_fixInv (jp : String → Option Json)
    (st : List Vulnerability × Option AuditSummary) (line : String)
    (hst : ∀ v ∈ st.1, v.fixAvailable = v.fixVersion.isSome) :
    ∀ v ∈ (yarnAuditLine jp st line).1, v.fixAvailable = v.fixVersion.isSome := by
  unfold yarnAuditLine
  cases hjp : jp line with
  | none => exact hst
  | some parsed =>
    dsimp only
    cases hg : jsGet parsed "type" with
    | error e => exact hst
    | ok t? =>
      dsimp only
      clear hg
      rcases t? with _ | j
      · exact hst
      · cases j
        case str s =>
          dsimp only
          by_cases h1 : (s == "auditAdvisory") = true
          · rw [if_pos h1]
            cases ha : yarnAdvisoryLine parsed with
            | error e => exact hst
            | ok v0 =>
              intro v hv
              rcases List.mem_append.mp hv with hv | hv
              · exact hst v hv
              · rw [List.mem_singleton.mp hv]
                exact yarnAdvisoryLine_fixInv parsed v0 ha
          · rw [if_neg h1]
            by_cases h2 : (s == "auditSummary") = true
            · rw [if_pos h2]
              cases hs : yarnSummaryLine parsed with
              | error e => exact hst
              | ok s2 => exact hst
            · rw [if_neg h2]
              exact hst
        all_goals exact hst

/-- The invariant holds after folding any list of yarn NDJSON lines. -/
theorem yarnFold_fixInv (jp : String → Option Json) :
    ∀ (lines : List String) (st : List Vulnerability × Option AuditSummary),
      (∀ v ∈ st.1, v.fixAvailable = v.fixVersion.isSome) →
      ∀ v ∈ (lines.foldl (yarnAuditLine jp) st).1, v.fixAvailable = v.fixVersion.isSome := by
  intro lines
  induction lines with
  | nil => intro st hst; exact hst
  | cons x xs ih =>
    intro st hst
    exact ih (yarnAuditLine jp st x) (yarnAuditLine_fixInv jp st x hst)

/-- C10: in both the pnpm and yarn audit parsers, every emitted
vulnerability has `fixAvailable = true` exactly when `fixVersion` is
present; and a `patched_versions` that is the `"<0.0.0"` sentinel or
contains no `major.minor.patch` substring yields no fix version (hence
`fixAvailable = false`). -/
theorem audit_fixAvailable_iff_fixVersion :
    (∀ (data : Json) (r : AuditResult), parsePnpmAuditJson data = .ok r →
      ∀ v ∈ r.vulnerabilities, v.fixAvailable = v.fixVersion.isSome) ∧
    (∀ (jp : String → Option Json) (out : String) (r : AuditResult),
      parseYarnAudit jp out = some r →
      ∀ v ∈ r.vulnerabilities, v.fixAvailable = v.fixVersion.isSome) ∧
    (∀ s : String, s = "<0.0.0" ∨ firstSemverMatch s = Option.none →
      patchedFixVersion (some (Json.str s)) = .ok Option.none) := by
  refine ⟨parsePnpmAuditJson_fixInv, ?_, ?_⟩
  · intro jp out r h
    unfold parseYarnAudit at h
    by_cases he : jsTrim out = ""
    · rw [if_pos he] at h; cases h
    · rw [if_neg he] at h
      dsimp only at h
      have hfold : ∀ v ∈ (yarnFoldState jp out).1, v.fixAvailable = v.fixVersion.isSome :=
        yarnFold_fixInv jp (strSplitOnChar (jsTrim out) '\n') ([], Option.none)
          (fun v hv => absurd hv (by simp))
      rcases hsum : (yarnFoldState jp out).2 with _ | s
      · rw [hsum] at h
        dsimp only at h
        rcases hvs : (yarnFoldState jp out).1 with _ | ⟨v0, vs0⟩
        · rw [hvs] at h
          simp at h
        · rw [hvs] at h
          dsimp only at h
          cases h
          intro v hv
          apply hfold
          rw [hvs]
          exact hv
      · rw [hsum] at h
        dsimp only at h
        cases h
        intro v hv
        exact hfold v hv
  · intro s hs
    unfold patchedFixVersion
    by_cases ht : jsTruthy (some (Json.str s)) = true
    · rw [if_neg (by simp [ht])]
      dsimp only
      rcases hs with hs | hs
      · subst hs; rfl
      · by_cases hq : (s == "<0.0.0") = true
        · rw [if_pos hq]
        · rw [if_neg hq, hs]
    · rw [if_pos (by simpa using ht)]

/-- Witness fixture for C10: one pnpm advisory with a patched range. -/
theorem audit_fixAvailable_iff_fixVersion_witness :
    ((⟨"lodash", Severity.high, some (Json.str "Proto"), "a > lodash", true,
        some (Json.str "4.17.21")⟩ : Vulnerability).fixAvailable =
      (⟨"lodash", Severity.high, some (Json.str "Proto"), "a > lodash", true,
        some (Json.str "4.17.21")⟩ : Vulnerability).fixVersion.isSome) ∧
    patchedFixVersion (some (Json.str "<0.0.0")) = .ok Option.none := by
  constructor
  · apply audit_fixAvailable_iff_fixVersion.1 pnpmFixAudit
      ⟨[⟨"lodash", Severity.high, some (Json.str "Proto"), "a > lodash", true,
          some (Json.str "4.17.21")⟩], ⟨0, 1, 0, 0, 1⟩⟩
      rfl
    simp
  · exact audit_fixAvailable_iff_fixVersion.2.2 "<0.0.0" (Or.inl rfl)

-- ===========================================================================
-- C7 — the summary total versus the four severity buckets
-- ===========================================================================

/-- C7 counterexample: `parseNpmAudit` copies `metadata.total` through
unvalidated, so an accepted input can return `total = 0` with
`critical = 5`, violating `total ≥ critical + high + moderate + low`. -/
theorem npm_audit_total_unvalidated :
    (parseNpmAuditJson npmTotalCex).map (fun r => r.summary) = .ok ⟨5, 0, 0, 0, 0⟩ ∧
    ¬((⟨5, 0, 0, 0, 0⟩ : AuditSummary).critical + (⟨5, 0, 0, 0, 0⟩ : AuditSummary).high +
        (⟨5, 0, 0, 0, 0⟩ : AuditSummary).moderate + (⟨5, 0, 0, 0, 0⟩ : AuditSummary).low ≤
        (⟨5, 0, 0, 0, 0⟩ : AuditSummary).total) :=
  ⟨rfl, by decide⟩

/-- When the five severity counts read from the metadata are all
non-negative, the summary built by `sumFiveSummary` has non-negative
fields and its `total` (the five-way sum) dominates the four tracked
buckets. -/
theorem sumFiveSummary_invariant_of_nonneg (meta : Json) (s : AuditSummary)
    (h : sumFiveSummary meta = .ok s)
    (hn : ∀ v : Int, (jsCount meta "critical" = .ok v ∨ jsCount meta "high" = .ok v ∨
        jsCount meta "moderate" = .ok v ∨ jsCount meta "low" = .ok v ∨
        jsCount meta "info" = .ok v) → 0 ≤ v) :
    0 ≤ s.critical ∧ 0 ≤ s.high ∧ 0 ≤ s.moderate ∧ 0 ≤ s.low ∧ 0 ≤ s.total ∧
      s.critical + s.high + s.moderate + s.low ≤ s.total := by
  simp only [sumFiveSummary, bind_eq_ok, Pure.pure, Except.pure, Except.ok.injEq] at h
  obtain ⟨c, hc, hh, hhh, m, hm, l, hl, i, hi, hs⟩ := h
  have h1 := hn c (Or.inl hc)
  have h2 := hn hh (Or.inr (Or.inl hhh))
  have h3 := hn m (Or.inr (Or.inr (Or.inl hm)))
  have h4 := hn l (Or.inr (Or.inr (Or.inr (Or.inl hl))))
  have h5 := hn i (Or.inr (Or.inr (Or.inr (Or.inr hi))))
  subst hs
  refine ⟨h1, h2, h3, h4, ?_, ?_⟩
  · show (0 : Int) ≤ c + hh + m + l + i
    omega
  · show c + hh + m + l ≤ c + hh + m + l + i
    omega

/-- The summary of every successful pnpm audit parse was produced by
`sumFiveSummary` (so its `total` is the five-way sum of the metadata
counts). -/
theorem parsePnpmAuditJson_summary_provenance (data : Json) (r : AuditResult)
    (h : parsePnpmAuditJson data = .ok r) :
    ∃ meta, sumFiveSummary meta = .ok r.summary := by
  unfold parsePnpmAuditJson at h
  rw [bind_eq_ok] at h
  obtain ⟨e?, -, h⟩ := h
  split at h
  · simp at h
  · rw [bind_eq_ok] at h
    obtain ⟨mv?, -, h⟩ := h
    split at h
    · simp at h
    · simp only [bind_eq_ok, Pure.pure, Except.pure, Except.ok.injEq] at h
      obtain ⟨a?, -, es, -, vs, -, s, hs, hr⟩ := h
      subst hr
      exact ⟨mv?.getD Json.null, hs⟩

/-- A yarn `auditSummary` line is also a `sumFiveSummary` product. -/
theorem yarnSummaryLine_summary_provenance (parsed : Json) (s : AuditSummary)
    (h : yarnSummaryLine parsed = .ok s) :
    ∃ meta, sumFiveSummary meta = .ok s := by
  unfold yarnSummaryLine at h
  rw [bind_eq_ok] at h
  obtain ⟨d?, -, h⟩ := h
  rw [bind_eq_ok] at h
  obtain ⟨mv?, -, h⟩ := h
  rcases mv? with _ | m
  · simp at h
  · exact ⟨m, h⟩

/-- A yarn fold step preserves the provenance of the accumulated
summary. -/
theorem yarnAuditLine_summary_provenance (jp : String → Option Json)
    (st : List Vulnerability × Option AuditSummary) (line : String)
    (hst : ∀ s, st.2 = some s → ∃ meta, sumFiveSummary meta = .ok s) :
    ∀ s, (yarnAuditLine jp st line).2 = some s → ∃ meta, sumFiveSummary meta = .ok s := by
  unfold yarnAuditLine
  cases hjp : jp line with
  | none => exact hst
  | some parsed =>
    dsimp only
    cases hg : jsGet parsed "type" with
    | error e => exact hst
    | ok t? =>
      dsimp only
      clear hg
      rcases t? with _ | j
      · exact hst
      · cases j
        case str s0 =>
          dsimp only
          by_cases h1 : (s0 == "auditAdvisory") = true
          · rw [if_pos h1]
            cases ha : yarnAdvisoryLine parsed with
            | error e => exact hst
            | ok v0 => exact hst
          · rw [if_neg h1]
            by_cases h2 : (s0 == "auditSummary") = true
            · rw [if_pos h2]
              cases hs : yarnSummaryLine parsed with
              | error e => exact hst
              | ok s2 =>
                intro s hs2
                have hs3 : some s2 = some s := hs2
                injection hs3 with he
                subst he
                exact yarnSummaryLine_summary_provenance parsed s2 hs
            · rw [if_neg h2]
              exact hst
        all_goals exact hst

/-- Summary provenance holds after folding any list of yarn NDJSON
lines. -/
theorem yarnFold_summary_provenance (jp : String → Option Json) :
    ∀ (lines : List String) (st : List Vulnerability × Option AuditSummary),
      (∀ s, st.2 = some s → ∃ meta, sumFiveSummary meta = .ok s) →
      ∀ s, (lines.foldl (yarnAuditLine jp) st).2 = some s →
        ∃ meta, sumFiveSummary meta = .ok s := by
  intro lines
  induction lines with
  | nil => intro st hst; exact hst
  | cons x xs ih =>
    intro st hst
    exact ih (yarnAuditLine jp st x) (yarnAuditLine_summary_provenance jp st x hst)

/-- Severity counts are non-negative. -/
theorem countSev_nonneg (vs : List Vulnerability) (s : Severity) : 0 ≤ countSev vs s :=
  Int.natCast_nonneg _

/-- The five severity counts partition the vulnerability list. -/
theorem countSev_partition (vs : List Vulnerability) :
    countSev vs Severity.critical + countSev vs Severity.high + countSev vs Severity.moderate +
      countSev vs Severity.low + countSev vs Severity.info = (vs.length : Int) := by
  induction vs with
  | nil => rfl
  | cons v t ih =>
    simp only [countSev, List.filter_cons, List.length_cons] at ih ⊢
    cases hv : v.severity <;> simp [hv] <;> omega

/-- C7 (amended): the npm parser copies `metadata` counts through
unvalidated (see the counterexample), but the pnpm and yarn parsers:
pnpm summaries come from `sumFiveSummary`, whose `total` is the
five-way severity sum, so whenever the five metadata counts are
non-negative the summary fields are non-negative and
`critical + high + moderate + low ≤ total`; yarn summaries either also
come from `sumFiveSummary` (an `auditSummary` line) or are synthesized
by counting the accumulated vulnerabilities, in which case the
invariant holds unconditionally. -/
theorem audit_summary_total_invariant :
    (∀ (data : Json) (r : AuditResult), parsePnpmAuditJson data = .ok r →
      ∃ meta, sumFiveSummary meta = .ok r.summary) ∧
    (∀ (meta : Json) (s : AuditSummary), sumFiveSummary meta = .ok s →
      (∀ v : Int, (jsCount meta "critical" = .ok v ∨ jsCount meta "high" = .ok v ∨
          jsCount meta "moderate" = .ok v ∨ jsCount meta "low" = .ok v ∨
          jsCount meta "info" = .ok v) → 0 ≤ v) →
      0 ≤ s.critical ∧ 0 ≤ s.high ∧ 0 ≤ s.moderate ∧ 0 ≤ s.low ∧ 0 ≤ s.total ∧
        s.critical + s.high + s.moderate + s.low ≤ s.total) ∧
    (∀ (jp : String → Option Json) (out : String) (r : AuditResult),
      parseYarnAudit jp out = some r →
      (∃ meta, sumFiveSummary meta = .ok r.summary) ∨
      (0 ≤ r.summary.critical ∧ 0 ≤ r.summary.high ∧ 0 ≤ r.summary.moderate ∧
        0 ≤ r.summary.low ∧ 0 ≤ r.summary.total ∧
        r.summary.critical + r.summary.high + r.summary.moderate + r.summary.low ≤
          r.summary.total)) := by
  refine ⟨parsePnpmAuditJson_summary_provenance, sumFiveSummary_invariant_of_nonneg, ?_⟩
  intro jp out r h
  unfold parseYarnAudit at h
  by_cases he : jsTrim out = ""
  · rw [if_pos he] at h; cases h
  · rw [if_neg he] at h
    dsimp only at h
    rcases hsum : (yarnFoldState jp out).2 with _ | s
    · rw [hsum] at h
      dsimp only at h
      rcases hvs : (yarnFoldState jp out).1 with _ | ⟨v0, vs0⟩
      · rw [hvs] at h
        simp at h
      · rw [hvs] at h
        dsimp only at h
        cases h
        right
        have hp := countSev_partition (v0 :: vs0)
        have n1 := countSev_nonneg (v0 :: vs0) Severity.critical
        have n2 := countSev_nonneg (v0 :: vs0) Severity.high
        have n3 := countSev_nonneg (v0 :: vs0) Severity.moderate
        have n4 := countSev_nonneg (v0 :: vs0) Severity.low
        have n5 := countSev_nonneg (v0 :: vs0) Severity.info
        refine ⟨n1, n2, n3, n4, ?_, ?_⟩
        · show (0 : Int) ≤ ((v0 :: vs0).length : Int)
          exact Int.natCast_nonneg _
        · show countSev (v0 :: vs0) Severity.critical + countSev (v0 :: vs0) Severity.high +
              countSev (v0 :: vs0) Severity.moderate + countSev (v0 :: vs0) Severity.low ≤
              ((v0 :: vs0).length : Int)
          omega
    · rw [hsum] at h
      dsimp only at h
      cases h
      left
      unfold yarnFoldState at hsum
      exact yarnFold_summary_provenance jp (strSplitOnChar (jsTrim out) '\n')
        ([], Option.none) (fun s2 hs2 => absurd hs2 (by simp)) s hsum

/-- Witness for the amended summary invariant: a concrete pnpm audit
whose summary is a `sumFiveSummary` product, concrete non-negative
metadata counts satisfying the invariant, and a concrete yarn audit. -/
theorem audit_summary_total_invariant_witness :
    (∃ meta, sumFiveSummary meta = .ok (⟨0, 1, 0, 0, 1⟩ : AuditSummary)) ∧
    (0 ≤ (⟨0, 1, 0, 0, 1⟩ : AuditSummary).critical ∧
      0 ≤ (⟨0, 1, 0, 0, 1⟩ : AuditSummary).high ∧
      0 ≤ (⟨0, 1, 0, 0, 1⟩ : AuditSummary).moderate ∧
      0 ≤ (⟨0, 1, 0, 0, 1⟩ : AuditSummary).low ∧
      0 ≤ (⟨0, 1, 0, 0, 1⟩ : AuditSummary).total ∧
      (⟨0, 1, 0, 0, 1⟩ : AuditSummary).critical + (⟨0, 1, 0, 0, 1⟩ : AuditSummary).high +
        (⟨0, 1, 0, 0, 1⟩ : AuditSummary).moderate + (⟨0, 1, 0, 0, 1⟩ : AuditSummary).low ≤
        (⟨0, 1, 0, 0, 1⟩ : AuditSummary).total) ∧
    ((∃ meta, sumFiveSummary meta = .ok (⟨0, 0, 0, 0, 0⟩ : AuditSummary)) ∨
      (0 ≤ (⟨0, 0, 0, 0, 0⟩ : AuditSummary).critical ∧
        0 ≤ (⟨0, 0, 0, 0, 0⟩ : AuditSummary).high ∧
        0 ≤ (⟨0, 0, 0, 0, 0⟩ : AuditSummary).moderate ∧
        0 ≤ (⟨0, 0, 0, 0, 0⟩ : AuditSummary).low ∧
        0 ≤ (⟨0, 0, 0, 0, 0⟩ : AuditSummary).total ∧
        (⟨0, 0, 0, 0, 0⟩ : AuditSummary).critical + (⟨0, 0, 0, 0, 0⟩ : AuditSummary).high +
          (⟨0, 0, 0, 0, 0⟩ : AuditSummary).moderate + (⟨0, 0, 0, 0, 0⟩ : AuditSummary).low ≤
          (⟨0, 0, 0, 0, 0⟩ : AuditSummary).total)) := by
  refine ⟨?_, ?_, ?_⟩
  · exact audit_summary_total_invariant.1 pnpmFixAudit
      ⟨[⟨"lodash", Severity.high, some (Json.str "Proto"), "a > lodash", true,
          some (Json.str "4.17.21")⟩], ⟨0, 1, 0, 0, 1⟩⟩ rfl
  · apply audit_summary_total_invariant.2.1 (Json.obj [("high", Json.num 1)])
      ⟨0, 1, 0, 0, 1⟩ rfl
    intro v hv
    rcases hv with h | h | h | h | h
    · injection (show (Except.ok (0 : Int) : Except Unit Int) = Except.ok v from h) with h0
      omega
    · injection (show (Except.ok (1 : Int) : Except Unit Int) = Except.ok v from h) with h0
      omega
    · injection (show (Except.ok (0 : Int) : Except Unit Int) = Except.ok v from h) with h0
      omega
    · injection (show (Except.ok (0 : Int) : Except Unit Int) = Except.ok v from h) with h0
      omega
    · injection (show (Except.ok (0 : Int) : Except Unit Int) = Except.ok v from h) with h0
      omega
  · exact audit_summary_total_invariant.2.2
      (fun _ => some (Json.obj [("type", Json.str "auditSummary"),
        ("data", Json.obj [("vulnerabilities", Json.obj [])])]))
      "x" ⟨[], ⟨0, 0, 0, 0, 0⟩⟩ rfl

end Upkeep
